import Mathlib

/-!
Verification of the logic-simulator front end (name table, scanner, parser)
against its specification.

The development is a shallow embedding of the Python sources:

* `Names`   embeds `names.py`   (identifier interning, error-code allocator);
* `ScanState`/`Scanner.*` embed `scanner.py` (tokeniser with comment rules);
* `ParseSt`/`Parser.*` embed `parse.py`  (recursive-descent parser with
  error recovery and semantic side-effects).

Conventions of the embedding:

* Python strings are Lean `String`s; the Python character-class predicates
  (`str.isalnum`, `str.isdigit`, `str.isspace`, ...) are modelled on their
  ASCII behaviour via `Char.isAlphanum` etc. (the definition files handled
  by the simulator are ASCII).
* Python `None` is `Option.none`; a Python function that can raise is
  embedded with an `Except` result.
* `sys.exit` (fatal scanner errors) and uncaught Python exceptions
  (failed `assert`, `AttributeError`, `KeyError`) are distinct `error`
  outcomes of the embedding.
* Python reads the definition file one character at a time; the unread part
  of the file is the `input : List Char` field of the scanner state, and
  `file.read(1)` at end of file returns `""`, embedded as `none`.
* Loops whose termination is not structural are embedded with an explicit
  fuel parameter; running out of fuel is the distinguished outcome `spin`,
  so a diverging Python loop is a run that yields `spin` at every fuel.
-/

deriving instance DecidableEq for Except

/-- Python `str.isspace` for a single ASCII character. -/
def pyIsSpaceChar (c : Char) : Bool :=
  c = ' ' || c = '\t' || c = '\n' || c = '\x0b' || c = '\x0c' || c = '\r'

/-- Python `str.isalnum` for a single ASCII character. -/
def pyIsAlnumChar (c : Char) : Bool := c.isAlphanum

/-- Python `str.isalpha` for a single ASCII character. -/
def pyIsAlphaChar (c : Char) : Bool := c.isAlpha

/-- Python `str.isdigit` for a single ASCII character. -/
def pyIsDigitChar (c : Char) : Bool := c.isDigit

/-- Python `s.isalnum()` on a whole string: non-empty and all alphanumeric. -/
def pyStrIsAlnum (s : String) : Bool :=
  !s.data.isEmpty && s.data.all pyIsAlnumChar

/-- Python `s.isdigit()` on a whole string: non-empty and all digits. -/
def pyStrIsDigit (s : String) : Bool :=
  !s.data.isEmpty && s.data.all pyIsDigitChar

/-- Python `list.index(x)`: index of the first occurrence of `x`
(call sites in `names.py` only use it when `x` is present, so the
out-of-range result for an absent element is irrelevant). -/
def pyIndex (l : List String) (x : String) : Nat :=
  match l with
  | [] => 0
  | b :: t => if b = x then 0 else pyIndex t x + 1

/-- The state of a `names.Names` instance (`names.py`): the list of interned
name strings and the number of error codes already declared. -/
structure Names where
  names : List String
  error_code_count : Nat
deriving DecidableEq, Repr

/-- `Names.unique_error_codes` (`names.py` lines 47-53): bump the error-code
counter by `num_error_codes` and return
`range(self.error_code_count - num_error_codes, self.error_code_count)`. -/
def Names.unique_error_codes (st : Names) (num_error_codes : Nat) :
    Names × List Nat :=
  let st' : Names :=
    { st with error_code_count := st.error_code_count + num_error_codes }
  (st', List.range' (st'.error_code_count - num_error_codes) num_error_codes)

/-- `Names.query` (`names.py` lines 55-70): raise `SyntaxError` for a
non-alphanumeric or purely numeric string, otherwise return the index of the
string in the names list, or `None` when absent.  The Python method never
mutates the instance, which the embedding reflects by not returning a state. -/
def Names.query (st : Names) (name_string : String) :
    Except String (Option Nat) :=
  if !pyStrIsAlnum name_string then
    .error ("string name is not alphanumeric")
  else if pyStrIsDigit name_string then
    .error ("name must be string")
  else if name_string ∈ st.names then
    .ok (some (pyIndex st.names name_string))
  else
    .ok none

/-- `Names.lookup` (`names.py` lines 73-89): for each string in order, append
it to the names list when absent and record `self.names.index(name)`. -/
def Names.lookup (st : Names) (name_string_list : List String) :
    Names × List Nat :=
  match name_string_list with
  | [] => (st, [])
  | name :: rest =>
    let names1 := if name ∈ st.names then st.names else st.names ++ [name]
    let st1 : Names := { st with names := names1 }
    let r := Names.lookup st1 rest
    (r.1, pyIndex names1 name :: r.2)

/-- `Names.get_name_string` (`names.py` lines 91-101): raise `ValueError` for
a negative ID, return the stored string for an in-range ID, and `None` when
the ID is at or beyond the length of the names list (Python's `IndexError`
branch). -/
def Names.get_name_string (st : Names) (name_id : Int) :
    Except String (Option String) :=
  if name_id < 0 then .error ("ID is out of range")
  else .ok st.names[name_id.toNat]?

-- Helper facts about `pyIndex`.

theorem pyIndex_get_of_mem {l : List String} {x : String} (h : x ∈ l) :
    l[pyIndex l x]? = some x := by
  induction l with
  | nil => cases h
  | cons b t ih =>
    by_cases hb : b = x
    · simp [pyIndex, hb]
    · have hx : x ∈ t := by
        rcases List.mem_cons.mp h with h1 | h1
        · exact absurd h1.symm hb
        · exact h1
      simp [pyIndex, hb, ih hx]

theorem pyIndex_append_not_mem {l : List String} {x : String} (h : x ∉ l) :
    pyIndex (l ++ [x]) x = l.length := by
  induction l with
  | nil => simp [pyIndex]
  | cons b t ih =>
    have hb : b ≠ x := by
      intro e; exact h (by simp [e])
    have ht : x ∉ t := fun m => h (by simp [m])
    simp [pyIndex, hb, ih ht]

theorem pyIndex_of_get {l : List String} {i : Nat} {x : String}
    (hnd : l.Nodup) (h : l[i]? = some x) : pyIndex l x = i := by
  induction l generalizing i with
  | nil => simp at h
  | cons b t ih =>
    cases i with
    | zero =>
      simp at h
      simp [pyIndex, h]
    | succ j =>
      simp at h
      have hbt : b ∉ t := (List.nodup_cons.mp hnd).1
      have hb : b ≠ x := by
        intro e
        subst e
        exact hbt (List.mem_iff_getElem?.mpr ⟨j, h⟩)
      have := ih (List.nodup_cons.mp hnd).2 h
      simp [pyIndex, hb, this]

theorem pyIndex_lt_length {l : List String} {x : String} (h : x ∈ l) :
    pyIndex l x < l.length := by
  induction l with
  | nil => cases h
  | cons b t ih =>
    by_cases hb : b = x
    · simp [pyIndex, hb]
    · have hx : x ∈ t := by
        rcases List.mem_cons.mp h with h1 | h1
        · exact absurd h1.symm hb
        · exact h1
      simp [pyIndex, hb]
      exact ih hx

-- Structure of `Names.lookup`: the names list only ever grows by appending.

theorem lookup_names_append (st : Names) (l : List String) :
    ∃ tail, (Names.lookup st l).1.names = st.names ++ tail := by
  induction l generalizing st with
  | nil => exact ⟨[], by simp [Names.lookup]⟩
  | cons name rest ih =>
    by_cases hc : name ∈ st.names
    · rcases ih { st with names := st.names } with ⟨tail, htail⟩
      exact ⟨tail, by simp [Names.lookup, hc]; exact htail⟩
    · rcases ih { st with names := st.names ++ [name] } with ⟨tail, htail⟩
      refine ⟨name :: tail, ?_⟩
      simp [Names.lookup, hc]
      simpa using htail

theorem lookup_error_code_count (st : Names) (l : List String) :
    (Names.lookup st l).1.error_code_count = st.error_code_count := by
  induction l generalizing st with
  | nil => simp [Names.lookup]
  | cons name rest ih => by_cases hc : name ∈ st.names <;>
      simp [Names.lookup, hc, ih]

theorem lookup_names_nodup (st : Names) (l : List String)
    (h : st.names.Nodup) : (Names.lookup st l).1.names.Nodup := by
  induction l generalizing st with
  | nil => simpa [Names.lookup]
  | cons name rest ih =>
    by_cases hc : name ∈ st.names
    · simpa [Names.lookup, hc] using ih { st with names := st.names } h
    · have hnd1 : (st.names ++ [name]).Nodup := by
        simp [List.nodup_append, h]
        exact hc
      simpa [Names.lookup, hc] using
        ih { st with names := st.names ++ [name] } hnd1

theorem lookup_length (st : Names) (l : List String) :
    (Names.lookup st l).2.length = l.length := by
  induction l generalizing st with
  | nil => simp [Names.lookup]
  | cons name rest ih => by_cases hc : name ∈ st.names <;>
      simp [Names.lookup, hc, ih]

theorem lookup_maps_each (st : Names) (l : List String) :
    ∀ i, i < l.length →
      (Names.lookup st l).1.names[(Names.lookup st l).2.getD i 0]?
        = some (l.getD i "") := by
  induction l generalizing st with
  | nil =>
    intro i hi
    cases hi
  | cons x rest ih =>
    intro i hi
    have hmem : x ∈ (if x ∈ st.names then st.names else st.names ++ [x]) := by
      by_cases hc : x ∈ st.names
      · rw [if_pos hc]
        exact hc
      · rw [if_neg hc]
        simp
    cases i with
    | zero =>
      rcases lookup_names_append
          { st with names := if x ∈ st.names then st.names else st.names ++ [x] }
          rest with ⟨tail, htail⟩
      have hlt : pyIndex (if x ∈ st.names then st.names else st.names ++ [x]) x
          < (if x ∈ st.names then st.names else st.names ++ [x]).length :=
        pyIndex_lt_length hmem
      calc (Names.lookup st (x :: rest)).1.names[
              (Names.lookup st (x :: rest)).2.getD 0 0]?
          = ((if x ∈ st.names then st.names else st.names ++ [x]) ++ tail)[
              pyIndex (if x ∈ st.names then st.names else st.names ++ [x]) x]? := by
            show (Names.lookup
                { st with names := if x ∈ st.names then st.names else st.names ++ [x] }
                rest).1.names[
                  pyIndex (if x ∈ st.names then st.names else st.names ++ [x]) x]? = _
            rw [htail]
        _ = (if x ∈ st.names then st.names else st.names ++ [x])[
              pyIndex (if x ∈ st.names then st.names else st.names ++ [x]) x]? :=
            List.getElem?_append_left hlt
        _ = some ((x :: rest).getD 0 "") := pyIndex_get_of_mem hmem
    | succ j =>
      have hj : j < rest.length := by
        simpa using hi
      have := ih { st with
        names := if x ∈ st.names then st.names else st.names ++ [x] } j hj
      simpa [Names.lookup, List.getD] using this

/-- C4: name-table round-trip.  `lookup` returns one ID per input string in
order, and the table after the call maps the i-th returned ID back to the
i-th input string; after `lookup [s]` the resulting table maps the returned
ID back to `s` via `get_name_string`; and on a duplicate-free table (the invariant of
tables built through the public interface, see `lookup_names_nodup`), an ID
already assigned to a string is returned again by `lookup` of that string,
with the table unchanged. -/
theorem names_lookup_round_trip (st : Names) (l : List String)
    (s s' : String) (i : Nat) :
    (st.lookup l).2.length = l.length
    ∧ (i < l.length →
        (st.lookup l).1.names[(st.lookup l).2.getD i 0]? = some (l.getD i ""))
    ∧ (st.lookup [s]).1.get_name_string (((st.lookup [s]).2.headI : Nat) : Int)
        = .ok (some s)
    ∧ (st.names.Nodup → st.get_name_string (i : Int) = .ok (some s') →
        st.lookup [s'] = (st, [i])) := by
  refine ⟨lookup_length st l, lookup_maps_each st l i, ?_, ?_⟩
  · by_cases hc : s ∈ st.names
    · have hmem : s ∈ st.names := hc
      simp [Names.lookup, hc, Names.get_name_string, List.headI,
        pyIndex_get_of_mem hmem]
    · have hmem : s ∈ st.names ++ [s] := by simp
      simp [Names.lookup, hc, Names.get_name_string, List.headI,
        pyIndex_get_of_mem hmem]
  · intro hnd hget
    have hpos : ¬((i : Int) < 0) := by
      simp
    rw [Names.get_name_string, if_neg hpos] at hget
    have hget2 : st.names[i]? = some s' := by
      simpa using hget
    have hmem : s' ∈ st.names := List.mem_iff_getElem?.mpr ⟨i, hget2⟩
    have hidx : pyIndex st.names s' = i := pyIndex_of_get hnd hget2
    simp [Names.lookup, hmem, hidx]

theorem names_lookup_round_trip_witness :
    ((⟨["Alice"], 0⟩ : Names).lookup ["x", "y"]).2.length = 2
    ∧ ((⟨["Alice"], 0⟩ : Names).lookup ["x", "y"]).1.names[
        ((⟨["Alice"], 0⟩ : Names).lookup ["x", "y"]).2.getD 1 0]? = some "y"
    ∧ ((⟨["Alice"], 0⟩ : Names).lookup ["Bob"]).1.get_name_string
        ((((⟨["Alice"], 0⟩ : Names).lookup ["Bob"]).2.headI : Nat) : Int)
        = .ok (some "Bob")
    ∧ (⟨["Alice"], 0⟩ : Names).lookup ["Alice"] = (⟨["Alice"], 0⟩, [0]) := by
  obtain ⟨h1, h2, h3, h4⟩ :=
    names_lookup_round_trip (⟨["Alice"], 0⟩ : Names) ["x", "y"] "Bob" "Alice" 1
  refine ⟨h1, by simpa using h2 (by decide), h3, ?_⟩
  obtain ⟨_, _, _, h4b⟩ :=
    names_lookup_round_trip (⟨["Alice"], 0⟩ : Names) ["x", "y"] "Bob" "Alice" 0
  exact h4b (by decide) (by rfl)

/-- C5: the error-code allocator is monotone and never recycles: two
successive calls reserving `a` and then `b` codes return lists of lengths
`a` and `b`; the first list lies in `[count, count + a)`, the second in
`[count + a, count + a + b)`; every code of the second call is strictly
above every code of the first, and the two lists are disjoint. -/
theorem names_unique_error_codes_monotone (st : Names) (a b : Nat) :
    (st.unique_error_codes a).2.length = a
    ∧ ((st.unique_error_codes a).1.unique_error_codes b).2.length = b
    ∧ (∀ x ∈ (st.unique_error_codes a).2,
        st.error_code_count ≤ x ∧ x < st.error_code_count + a)
    ∧ (∀ y ∈ ((st.unique_error_codes a).1.unique_error_codes b).2,
        st.error_code_count + a ≤ y ∧ y < st.error_code_count + a + b)
    ∧ (∀ x ∈ (st.unique_error_codes a).2,
        ∀ y ∈ ((st.unique_error_codes a).1.unique_error_codes b).2, x < y)
    ∧ (∀ x ∈ (st.unique_error_codes a).2,
        x ∉ ((st.unique_error_codes a).1.unique_error_codes b).2) := by
  refine ⟨by simp [Names.unique_error_codes], by simp [Names.unique_error_codes],
    ?_, ?_, ?_, ?_⟩
  · intro x hx
    simp [Names.unique_error_codes, List.mem_range'_1] at hx
    omega
  · intro y hy
    simp [Names.unique_error_codes, List.mem_range'_1] at hy
    omega
  · intro x hx y hy
    simp [Names.unique_error_codes, List.mem_range'_1] at hx hy
    omega
  · intro x hx hy
    simp [Names.unique_error_codes, List.mem_range'_1] at hx hy
    omega

theorem names_unique_error_codes_monotone_witness :
    (Names.unique_error_codes ⟨[], 5⟩ 2).2.length = 2
    ∧ (5 : Nat) ∈ (Names.unique_error_codes ⟨[], 5⟩ 2).2
    ∧ (7 : Nat) ∈ ((Names.unique_error_codes ⟨[], 5⟩ 2).1.unique_error_codes 3).2
    ∧ (5 : Nat) < 7
    ∧ (5 : Nat) ∉ ((Names.unique_error_codes ⟨[], 5⟩ 2).1.unique_error_codes 3).2 := by
  have h := names_unique_error_codes_monotone (⟨[], 5⟩ : Names) 2 3
  refine ⟨h.1, by decide, by decide, ?_, ?_⟩
  · exact h.2.2.2.2.1 5 (by decide) 7 (by decide)
  · exact h.2.2.2.2.2 5 (by decide)

/-- C6: `query` raises `SyntaxError` exactly for strings that are not
alphanumeric or are purely numeric; for a valid identifier string it
returns the stored ID when the string is present and `None` otherwise.
The embedding of `query` takes the table by value and returns no table,
mirroring that the Python method never mutates the names list. -/
theorem names_query_validation (st : Names) (s : String) :
    ((∃ msg, st.query s = .error msg)
        ↔ (pyStrIsAlnum s = false ∨ pyStrIsDigit s = true))
    ∧ (pyStrIsAlnum s = true → pyStrIsDigit s = false →
        st.query s
          = .ok (if s ∈ st.names then some (pyIndex st.names s) else none)) := by
  constructor
  · constructor
    · intro ⟨msg, hmsg⟩
      by_cases ha : pyStrIsAlnum s
      · by_cases hd : pyStrIsDigit s
        · exact Or.inr hd
        · rw [Names.query, if_neg (by simp [ha]), if_neg (by simp [hd])] at hmsg
          by_cases hm : s ∈ st.names <;> simp [hm] at hmsg
      · exact Or.inl (by simpa using ha)
    · intro h
      rcases h with h | h
      · exact ⟨"string name is not alphanumeric",
          by rw [Names.query, if_pos (by simp [h])]⟩
      · by_cases ha : pyStrIsAlnum s
        · exact ⟨"name must be string",
            by rw [Names.query, if_neg (by simp [ha]), if_pos h]⟩
        · exact ⟨"string name is not alphanumeric",
            by rw [Names.query, if_pos (by simp [ha])]⟩
  · intro ha hd
    rw [Names.query, if_neg (by simp [ha]), if_neg (by simp [hd])]
    by_cases hm : s ∈ st.names <;> simp [hm]

theorem names_query_validation_witness :
    (⟨["Alice"], 0⟩ : Names).query "Alice" = .ok (some 0)
    ∧ (∃ msg, (⟨["Alice"], 0⟩ : Names).query "3?" = .error msg)
    ∧ (∃ msg, (⟨["Alice"], 0⟩ : Names).query "37" = .error msg) := by
  refine ⟨?_, ?_, ?_⟩
  · have h := (names_query_validation (⟨["Alice"], 0⟩ : Names) "Alice").2
      (by decide) (by decide)
    simpa using h
  · exact (names_query_validation (⟨["Alice"], 0⟩ : Names) "3?").1.mpr
      (Or.inl (by decide))
  · exact (names_query_validation (⟨["Alice"], 0⟩ : Names) "37").1.mpr
      (Or.inr (by decide))

/-- C7 counterexample: `get_name_string` does not return an absent value for
a negative ID; it raises `ValueError` (`names.py` lines 96-97), as the
project's own test suite expects (`test_names.py`,
`test_get_name_string_raises_exceptions`). -/
theorem names_get_name_string_negative_raises :
    Names.get_name_string ⟨["Alice"], 0⟩ (-1)
      = .error ("ID is out of range") := by rfl

/-- C7 amended: `get_name_string` returns the stored string for an in-range
ID, an absent value for an ID at or beyond the number of stored names, and
raises `ValueError` for an ID below zero. -/
theorem names_get_name_string_amended (st : Names) (i : Int) :
    (∀ h2 : i.toNat < st.names.length, 0 ≤ i →
        st.get_name_string i = .ok (some (st.names.get ⟨i.toNat, h2⟩)))
    ∧ (0 ≤ i → st.names.length ≤ i.toNat → st.get_name_string i = .ok none)
    ∧ (i < 0 → st.get_name_string i = .error ("ID is out of range")) := by
  refine ⟨?_, ?_, ?_⟩
  · intro h2 h1
    rw [Names.get_name_string, if_neg (by omega)]
    simp [List.getElem?_eq_getElem h2]
  · intro h1 h2
    rw [Names.get_name_string, if_neg (by omega)]
    simp [List.getElem?_eq_none h2]
  · intro h1
    rw [Names.get_name_string, if_pos h1]

theorem names_get_name_string_amended_witness :
    Names.get_name_string ⟨["Alice"], 0⟩ 0 = .ok (some "Alice")
    ∧ Names.get_name_string ⟨["Alice"], 0⟩ 5 = .ok none
    ∧ Names.get_name_string ⟨["Alice"], 0⟩ (-2)
        = .error ("ID is out of range") := by
  refine ⟨?_, ?_, ?_⟩
  · exact (names_get_name_string_amended ⟨["Alice"], 0⟩ 0).1 (by decide)
      (by decide)
  · exact (names_get_name_string_amended ⟨["Alice"], 0⟩ 5).2.1 (by decide)
      (by decide)
  · exact (names_get_name_string_amended ⟨["Alice"], 0⟩ (-2)).2.2 (by decide)

/-- C9 counterexample: `lookup` performs no validation of its strings, so
the empty string and a purely numeric string become names of the table,
contradicting the claimed invariant that the empty string is never a name
and that every stored name is alphanumeric starting with a letter. -/
theorem names_invalid_strings_stored :
    (Names.lookup ⟨[], 0⟩ [""]).1.names = [""]
    ∧ (Names.lookup ⟨[], 0⟩ ["123"]).1.names = ["123"] := by decide

/-- C9 amended: the name table is append-only and IDs are stable: `lookup`
only ever appends to the names list, so an assigned ID keeps its string and
is never removed or remapped, duplicate-freeness is preserved, and
`unique_error_codes` leaves the names list untouched.  However `lookup`
accepts arbitrary strings, so the empty string or a non-alphanumeric string
can be stored (see `names_invalid_strings_stored`); the
alphanumeric-starting-with-a-letter shape of stored names is guaranteed
only by the scanner, which interns none but `[A-Za-z][A-Za-z0-9]*` words
and the fixed keyword list. -/
theorem names_table_append_only (st : Names) (l : List String) (n i : Nat)
    (hi : i < st.names.length) :
    (st.lookup l).1.names[i]? = st.names[i]?
    ∧ (∃ tail, (st.lookup l).1.names = st.names ++ tail)
    ∧ (st.names.Nodup → (st.lookup l).1.names.Nodup)
    ∧ (st.unique_error_codes n).1.names = st.names := by
  refine ⟨?_, lookup_names_append st l, lookup_names_nodup st l, by
    simp [Names.unique_error_codes]⟩
  rcases lookup_names_append st l with ⟨tail, htail⟩
  rw [htail]
  exact List.getElem?_append_left hi

theorem names_table_append_only_witness :
    ((⟨["Alice"], 0⟩ : Names).lookup ["Bob", ""]).1.names[0]?
        = (["Alice"] : List String)[0]?
    ∧ (∃ tail, ((⟨["Alice"], 0⟩ : Names).lookup ["Bob", ""]).1.names
        = ["Alice"] ++ tail)
    ∧ ((["Alice"] : List String).Nodup →
        ((⟨["Alice"], 0⟩ : Names).lookup ["Bob", ""]).1.names.Nodup)
    ∧ ((⟨["Alice"], 0⟩ : Names).unique_error_codes 4).1.names = ["Alice"] := by
  exact names_table_append_only ⟨["Alice"], 0⟩ ["Bob", ""] 4 0 (by decide)

/-- A scanner symbol (`scanner.py`, class `Symbol`): the token kind (`type`
in the source; `None` until assigned), the optional ID (name-table ID for
keywords and names, numeric value for numbers), and the position. -/
structure Scanner.Symbol where
  stype : Option Nat
  id : Option Nat
  line_num : Nat
  char_num : Nat
deriving DecidableEq, Repr

-- The eleven token kinds, `range(11)` in `Scanner.__init__`.

def Scanner.COMMA : Nat := 0
def Scanner.SEMICOLON : Nat := 1
def Scanner.GREATER : Nat := 2
def Scanner.BRACK_OPEN : Nat := 3
def Scanner.BRACK_CLOSE : Nat := 4
def Scanner.NUMBER : Nat := 5
def Scanner.KEYWORD : Nat := 6
def Scanner.NAME : Nat := 7
def Scanner.DOT : Nat := 8
def Scanner.COLON : Nat := 9
def Scanner.EOF : Nat := 10

/-- `Scanner.keywords_list` from `Scanner.__init__`. -/
def Scanner.keywords_list : List String :=
  ["CLOCK", "SWITCH", "AND", "NAND", "OR", "NOR", "DTYPE", "XOR", "MONITOR",
   "Q", "QBAR", "CLK", "DATA", "SET", "CLEAR", "DEVICES", "CONNECTIONS", "RC"]

/-- The mutable state of a `scanner.Scanner` instance: the unread remainder
of the definition file, the one-character read buffer `current_char`
(`none` embeds Python's `""` at end of file), the consecutive-hash counter,
the position counters, and the shared name table. -/
structure ScanState where
  input : List Char
  current_char : Option Char
  hashes : Nat
  line_num : Nat
  char_num : Nat
  names : Names
deriving DecidableEq, Repr

/-- `Scanner.__init__`: `current_char` starts as `" "`, counters at zero,
and the keywords are interned; the keyword IDs (`CLOCK_ID` .. `RC_ID`) are
returned alongside the state. -/
def Scanner.init (names : Names) (input : List Char) : ScanState × List Nat :=
  let r := names.lookup Scanner.keywords_list
  ({ input := input, current_char := some ' ', hashes := 0, line_num := 0,
     char_num := 0, names := r.1 }, r.2)

/-- Python `current_char.isspace()` (where `current_char` may be `""`). -/
def pyIsSpaceO (oc : Option Char) : Bool :=
  match oc with
  | none => false
  | some c => pyIsSpaceChar c

/-- Python `current_char.isalnum()` (where `current_char` may be `""`). -/
def pyIsAlnumO (oc : Option Char) : Bool :=
  match oc with
  | none => false
  | some c => pyIsAlnumChar c

/-- The `valid_punc` list of `Scanner._next_valid_char`, which contains the
seven punctuation characters and the empty string (end of file). -/
def Scanner.valid_punc (oc : Option Char) : Bool :=
  match oc with
  | none => true
  | some c => c ∈ [',', ';', '>', '(', ')', '.', ':']

/-- `Scanner._next_char` combined with the `Scanner._hash_count` call it
performs: read one character (or `none` at end of file), update the
consecutive-hash counter from the PREVIOUS `current_char` (the source calls
`_hash_count` before overwriting `current_char`), advance the column
counter, and reset line/column on a newline. -/
def Scanner.next_char (st : ScanState) : Option Char × ScanState :=
  let char := st.input.head?
  let st1 : ScanState :=
    { st with
      input := st.input.tail
      hashes := if st.current_char = some '#' then st.hashes + 1 else 0
      char_num := st.char_num + 1
      current_char := char }
  if char = some '\n' then
    (char, { st1 with line_num := st.line_num + 1, char_num := 0 })
  else (char, st1)

/-- Termination measure for the scanner loops: the unread input weighted
twice, plus one if the read buffer still holds a character.  Every
`next_char` on a state with positive measure strictly decreases it. -/
def scanMeasure (st : ScanState) : Nat :=
  2 * st.input.length + (if st.current_char.isSome then 1 else 0)

theorem next_char_input (st : ScanState) :
    (Scanner.next_char st).2.input = st.input.tail := by
  rw [Scanner.next_char]
  split <;> rfl

theorem next_char_current (st : ScanState) :
    (Scanner.next_char st).2.current_char = st.input.head? := by
  rw [Scanner.next_char]
  split <;> rfl

theorem next_char_fst (st : ScanState) :
    (Scanner.next_char st).1 = st.input.head? := by
  rw [Scanner.next_char]
  split <;> rfl

theorem next_char_names (st : ScanState) :
    (Scanner.next_char st).2.names = st.names := by
  rw [Scanner.next_char]
  split <;> rfl

theorem next_char_measure_le (st : ScanState) :
    scanMeasure (Scanner.next_char st).2 ≤ scanMeasure st := by
  rw [scanMeasure, scanMeasure, next_char_input, next_char_current]
  rcases hinp : st.input with _ | ⟨c, t⟩ <;> simp <;> omega

theorem next_char_measure_lt (st : ScanState) (h : 0 < scanMeasure st) :
    scanMeasure (Scanner.next_char st).2 < scanMeasure st := by
  rw [scanMeasure, scanMeasure, next_char_input, next_char_current]
  rw [scanMeasure] at h
  rcases hinp : st.input with _ | ⟨c, t⟩
  · rw [hinp] at h
    simp at h ⊢
    simpa [h]
  · simp
    omega

theorem measure_pos_of_current_some {st : ScanState} {c : Char}
    (h : st.current_char = some c) : 0 < scanMeasure st := by
  rw [scanMeasure, h]
  simp

theorem next_char_some_input_lt {st : ScanState}
    (h : ¬(Scanner.next_char st).1 = none) :
    (Scanner.next_char st).2.input.length < st.input.length := by
  rw [next_char_fst] at h
  rw [next_char_input]
  rcases hinp : st.input with _ | ⟨c, t⟩
  · rw [hinp] at h
    simp at h
  · simp

/-- The inner `while self.hashes < 3` loop of `Scanner._next_non_comment_char`
(source lines 118-121): keep reading; at end of file return from the whole
function (`Sum.inl`), otherwise leave the loop once three consecutive
hashes have been counted (`Sum.inr`). -/
def Scanner.hash_inner (st : ScanState) : ScanState ⊕ ScanState :=
  if st.hashes < 3 then
    if h : (Scanner.next_char st).1 = none then .inl (Scanner.next_char st).2
    else Scanner.hash_inner (Scanner.next_char st).2
  else .inr st
termination_by st.input.length
decreasing_by
  exact next_char_some_input_lt h

theorem hash_inner_inl_measure_le (st st' : ScanState)
    (h : Scanner.hash_inner st = .inl st') : scanMeasure st' ≤ scanMeasure st := by
  induction st using Scanner.hash_inner.induct with
  | case1 st hlt hnone =>
    rw [Scanner.hash_inner, if_pos hlt, dif_pos hnone] at h
    injection h with h
    exact h ▸ next_char_measure_le st
  | case2 st hlt hnone ih =>
    rw [Scanner.hash_inner, if_pos hlt, dif_neg hnone] at h
    exact le_trans (ih h) (next_char_measure_le st)
  | case3 st hge =>
    rw [Scanner.hash_inner, if_neg hge] at h
    cases h

theorem hash_inner_inr_measure_le (st st' : ScanState)
    (h : Scanner.hash_inner st = .inr st') : scanMeasure st' ≤ scanMeasure st := by
  induction st using Scanner.hash_inner.induct with
  | case1 st hlt hnone =>
    rw [Scanner.hash_inner, if_pos hlt, dif_pos hnone] at h
    cases h
  | case2 st hlt hnone ih =>
    rw [Scanner.hash_inner, if_pos hlt, dif_neg hnone] at h
    exact le_trans (ih h) (next_char_measure_le st)
  | case3 st hge =>
    rw [Scanner.hash_inner, if_neg hge] at h
    injection h with h
    exact le_of_eq (congrArg _ h.symm)

theorem hash_inner_inr_measure_lt (st st' : ScanState) (hlt0 : st.hashes < 3)
    (h : Scanner.hash_inner st = .inr st') : scanMeasure st' < scanMeasure st := by
  rw [Scanner.hash_inner, if_pos hlt0] at h
  by_cases hn : (Scanner.next_char st).1 = none
  · rw [dif_pos hn] at h
    cases h
  · rw [dif_neg hn] at h
    have hin : (Scanner.next_char st).2.input.length < st.input.length :=
      next_char_some_input_lt hn
    have h2 : scanMeasure (Scanner.next_char st).2 < scanMeasure st := by
      apply next_char_measure_lt
      rw [scanMeasure]
      omega
    exact lt_of_le_of_lt (hash_inner_inr_measure_le _ _ h) h2

theorem hash_inner_inl_current (st st' : ScanState)
    (h : Scanner.hash_inner st = .inl st') : st'.current_char = none := by
  induction st using Scanner.hash_inner.induct with
  | case1 st hlt hnone =>
    rw [Scanner.hash_inner, if_pos hlt, dif_pos hnone] at h
    injection h with h
    rw [← h, next_char_current, ← next_char_fst]
    exact hnone
  | case2 st hlt hnone ih =>
    rw [Scanner.hash_inner, if_pos hlt, dif_neg hnone] at h
    exact ih h
  | case3 st hge =>
    rw [Scanner.hash_inner, if_neg hge] at h
    cases h

/-- The `while True` loop of `Scanner._next_non_comment_char` (source lines
113-137), entered with `current_char == '#'`: a run of three hashes opens a
block comment consumed by `hash_inner` up to the next three-hash run; a
newline ends a line comment unless the next line again starts with `#`;
end of file stops everything; any other character is consumed. -/
def Scanner.nc_loop (st : ScanState) : ScanState :=
  if h3 : st.hashes = 3 then
    match hh : Scanner.hash_inner { st with hashes := 0 } with
    | .inl stE => stE
    | .inr st1 =>
      if hch : st1.current_char = some '#' then
        Scanner.nc_loop (Scanner.next_char { st1 with hashes := 0 }).2
      else { st1 with hashes := 0 }
  else if hnl : st.current_char = some '\n' then
    if hch2 : (Scanner.next_char st).2.current_char = some '#' then
      Scanner.nc_loop (Scanner.next_char st).2
    else (Scanner.next_char st).2
  else if hcn : st.current_char = none then st
  else Scanner.nc_loop (Scanner.next_char st).2
termination_by scanMeasure st
decreasing_by
  · have h1 : scanMeasure st1 < scanMeasure { st with hashes := 0 } :=
      hash_inner_inr_measure_lt _ _ (by simp) hh
    have h2 : scanMeasure { st with hashes := 0 } = scanMeasure st := rfl
    have h3 : scanMeasure { st1 with hashes := 0 } = scanMeasure st1 := rfl
    calc scanMeasure (Scanner.next_char { st1 with hashes := 0 }).2
        ≤ scanMeasure { st1 with hashes := 0 } := next_char_measure_le _
      _ = scanMeasure st1 := h3
      _ < scanMeasure { st with hashes := 0 } := h1
      _ = scanMeasure st := h2
  · exact next_char_measure_lt st (measure_pos_of_current_some hnl)
  · apply next_char_measure_lt st
    rcases hc : st.current_char with _ | c
    · exact absurd hc hcn
    · exact measure_pos_of_current_some hc

-- Branch equations for `Scanner.nc_loop`.

theorem nc_loop_eq_inl {st stE : ScanState} (h3 : st.hashes = 3)
    (hh : Scanner.hash_inner { st with hashes := 0 } = .inl stE) :
    Scanner.nc_loop st = stE := by
  rw [Scanner.nc_loop, dif_pos h3]
  split
  · next stE' heq =>
    rw [hh] at heq
    injection heq with heq
    rw [heq]
  · next st1 heq =>
    rw [hh] at heq
    cases heq

theorem nc_loop_eq_inr_hash {st st1 : ScanState} (h3 : st.hashes = 3)
    (hh : Scanner.hash_inner { st with hashes := 0 } = .inr st1)
    (hch : st1.current_char = some '#') :
    Scanner.nc_loop st
      = Scanner.nc_loop (Scanner.next_char { st1 with hashes := 0 }).2 := by
  rw [Scanner.nc_loop, dif_pos h3]
  split
  · next stE' heq =>
    rw [hh] at heq
    cases heq
  · next st1' heq =>
    rw [hh] at heq
    injection heq with heq
    subst heq
    rw [dif_pos hch]

theorem nc_loop_eq_inr_nohash {st st1 : ScanState} (h3 : st.hashes = 3)
    (hh : Scanner.hash_inner { st with hashes := 0 } = .inr st1)
    (hch : ¬st1.current_char = some '#') :
    Scanner.nc_loop st = { st1 with hashes := 0 } := by
  rw [Scanner.nc_loop, dif_pos h3]
  split
  · next stE' heq =>
    rw [hh] at heq
    cases heq
  · next st1' heq =>
    rw [hh] at heq
    injection heq with heq
    subst heq
    rw [dif_neg hch]

theorem nc_loop_eq_nl_hash {st : ScanState} (h3 : ¬st.hashes = 3)
    (hnl : st.current_char = some '\n')
    (hch2 : (Scanner.next_char st).2.current_char = some '#') :
    Scanner.nc_loop st = Scanner.nc_loop (Scanner.next_char st).2 := by
  rw [Scanner.nc_loop, dif_neg h3, dif_pos hnl, dif_pos hch2]

theorem nc_loop_eq_nl_nohash {st : ScanState} (h3 : ¬st.hashes = 3)
    (hnl : st.current_char = some '\n')
    (hch2 : ¬(Scanner.next_char st).2.current_char = some '#') :
    Scanner.nc_loop st = (Scanner.next_char st).2 := by
  rw [Scanner.nc_loop, dif_neg h3, dif_pos hnl, dif_neg hch2]

theorem nc_loop_eq_eof {st : ScanState} (h3 : ¬st.hashes = 3)
    (hnl : ¬st.current_char = some '\n') (hcn : st.current_char = none) :
    Scanner.nc_loop st = st := by
  rw [Scanner.nc_loop, dif_neg h3, dif_neg hnl, dif_pos hcn]

theorem nc_loop_eq_other {st : ScanState} (h3 : ¬st.hashes = 3)
    (hnl : ¬st.current_char = some '\n') (hcn : ¬st.current_char = none) :
    Scanner.nc_loop st = Scanner.nc_loop (Scanner.next_char st).2 := by
  rw [Scanner.nc_loop, dif_neg h3, dif_neg hnl, dif_neg hcn]

theorem nc_loop_measure_le (st : ScanState) :
    scanMeasure (Scanner.nc_loop st) ≤ scanMeasure st := by
  induction st using Scanner.nc_loop.induct with
  | case1 st h3 stE hh =>
    rw [nc_loop_eq_inl h3 hh]
    exact hash_inner_inl_measure_le { st with hashes := 0 } _ hh
  | case2 st h3 st1 hh hch ih =>
    rw [nc_loop_eq_inr_hash h3 hh hch]
    have h1 : scanMeasure st1 ≤ scanMeasure st :=
      hash_inner_inr_measure_le { st with hashes := 0 } st1 hh
    calc scanMeasure (Scanner.nc_loop (Scanner.next_char { st1 with hashes := 0 }).2)
        ≤ scanMeasure (Scanner.next_char { st1 with hashes := 0 }).2 := ih
      _ ≤ scanMeasure { st1 with hashes := 0 } := next_char_measure_le _
      _ = scanMeasure st1 := rfl
      _ ≤ scanMeasure st := h1
  | case3 st h3 st1 hh hch =>
    rw [nc_loop_eq_inr_nohash h3 hh hch]
    show scanMeasure st1 ≤ scanMeasure { st with hashes := 0 }
    exact hash_inner_inr_measure_le { st with hashes := 0 } st1 hh
  | case4 st h3 hnl hch2 ih =>
    rw [nc_loop_eq_nl_hash h3 hnl hch2]
    exact le_trans ih (next_char_measure_le st)
  | case5 st h3 hnl hch2 =>
    rw [nc_loop_eq_nl_nohash h3 hnl hch2]
    exact next_char_measure_le st
  | case6 st h3 hnl hcn =>
    rw [nc_loop_eq_eof h3 hnl hcn]
  | case7 st h3 hnl hcn ih =>
    rw [nc_loop_eq_other h3 hnl hcn]
    exact le_trans ih (next_char_measure_le st)

theorem nc_loop_not_hash (st : ScanState) :
    ¬(Scanner.nc_loop st).current_char = some '#' := by
  induction st using Scanner.nc_loop.induct with
  | case1 st h3 stE hh =>
    rw [nc_loop_eq_inl h3 hh, hash_inner_inl_current _ _ hh]
    simp
  | case2 st h3 st1 hh hch ih =>
    rw [nc_loop_eq_inr_hash h3 hh hch]
    exact ih
  | case3 st h3 st1 hh hch =>
    rw [nc_loop_eq_inr_nohash h3 hh hch]
    exact hch
  | case4 st h3 hnl hch2 ih =>
    rw [nc_loop_eq_nl_hash h3 hnl hch2]
    exact ih
  | case5 st h3 hnl hch2 =>
    rw [nc_loop_eq_nl_nohash h3 hnl hch2]
    exact hch2
  | case6 st h3 hnl hcn =>
    rw [nc_loop_eq_eof h3 hnl hcn, hcn]
    simp
  | case7 st h3 hnl hcn ih =>
    rw [nc_loop_eq_other h3 hnl hcn]
    exact ih

/-- `Scanner._next_non_comment_char` (source lines 107-111 plus the loop):
read one character; if it is not `#` return it, otherwise run the comment
loop. -/
def Scanner.next_non_comment_char (st : ScanState) : ScanState :=
  let st1 := (Scanner.next_char st).2
  if st1.current_char = some '#' then Scanner.nc_loop st1 else st1

theorem nncc_measure_le (st : ScanState) :
    scanMeasure (Scanner.next_non_comment_char st) ≤ scanMeasure st := by
  rw [Scanner.next_non_comment_char]
  split
  · exact le_trans (nc_loop_measure_le _) (next_char_measure_le st)
  · exact next_char_measure_le st

theorem nncc_measure_lt (st : ScanState) (h : 0 < scanMeasure st) :
    scanMeasure (Scanner.next_non_comment_char st) < scanMeasure st := by
  rw [Scanner.next_non_comment_char]
  split
  · exact lt_of_le_of_lt (nc_loop_measure_le _) (next_char_measure_lt st h)
  · exact next_char_measure_lt st h

theorem nncc_not_hash (st : ScanState) :
    ¬(Scanner.next_non_comment_char st).current_char = some '#' := by
  rw [Scanner.next_non_comment_char]
  split
  · exact nc_loop_not_hash _
  · next hch => exact hch

/-- `Scanner._next_valid_char` (source lines 139-150): skip whitespace and
comments; every character reached while skipping that is neither
alphanumeric nor whitespace must be one of the valid punctuation characters
(or end of file), otherwise the scanner prints the position and calls
`sys.exit()` — embedded as the `.error` outcome.  Note the check only runs
inside the skipping loop: a character reached otherwise is returned as is. -/
def Scanner.next_valid_char (st : ScanState) : Except Unit ScanState :=
  if hc : pyIsSpaceO st.current_char || st.current_char = some '#' then
    let st1 := Scanner.next_non_comment_char st
    if !pyIsAlnumO st1.current_char && !pyIsSpaceO st1.current_char then
      if !Scanner.valid_punc st1.current_char then .error ()
      else Scanner.next_valid_char st1
    else Scanner.next_valid_char st1
  else .ok st
termination_by scanMeasure st
decreasing_by
  · apply nncc_measure_lt
    rcases hcc : st.current_char with _ | c
    · rw [hcc] at hc
      simp [pyIsSpaceO] at hc
    · exact measure_pos_of_current_some hcc
  · apply nncc_measure_lt
    rcases hcc : st.current_char with _ | c
    · rw [hcc] at hc
      simp [pyIsSpaceO] at hc
    · exact measure_pos_of_current_some hcc

theorem next_valid_char_measure_le (st st' : ScanState)
    (h : Scanner.next_valid_char st = .ok st') :
    scanMeasure st' ≤ scanMeasure st := by
  induction st using Scanner.next_valid_char.induct with
  | case1 st hc st1 hna hfatal =>
    rw [Scanner.next_valid_char, dif_pos hc, if_pos hna, if_pos hfatal] at h
    cases h
  | case2 st hc st1 hna hnp ih =>
    rw [Scanner.next_valid_char, dif_pos hc, if_pos hna, if_neg hnp] at h
    exact le_trans (ih h) (nncc_measure_le st)
  | case3 st hc st1 hna ih =>
    rw [Scanner.next_valid_char, dif_pos hc, if_neg hna] at h
    exact le_trans (ih h) (nncc_measure_le st)
  | case4 st hc =>
    rw [Scanner.next_valid_char, dif_neg hc] at h
    injection h with h
    exact le_of_eq (congrArg _ h.symm)

theorem next_valid_char_exit (st st' : ScanState)
    (h : Scanner.next_valid_char st = .ok st') :
    ¬pyIsSpaceO st'.current_char = true ∧ ¬st'.current_char = some '#' := by
  induction st using Scanner.next_valid_char.induct with
  | case1 st hc st1 hna hfatal =>
    rw [Scanner.next_valid_char, dif_pos hc, if_pos hna, if_pos hfatal] at h
    cases h
  | case2 st hc st1 hna hnp ih =>
    rw [Scanner.next_valid_char, dif_pos hc, if_pos hna, if_neg hnp] at h
    exact ih h
  | case3 st hc st1 hna ih =>
    rw [Scanner.next_valid_char, dif_pos hc, if_neg hna] at h
    exact ih h
  | case4 st hc =>
    rw [Scanner.next_valid_char, dif_neg hc] at h
    injection h with h
    subst h
    constructor
    · intro hs
      exact hc (by simp [hs])
    · intro hs
      exact hc (by simp [hs])

/-- Python `current_char.isdigit()` (where `current_char` may be `""`). -/
def pyIsDigitO (oc : Option Char) : Bool :=
  match oc with
  | none => false
  | some c => pyIsDigitChar c

theorem measure_pos_of_isSome {st : ScanState}
    (h : st.current_char.isSome = true) : 0 < scanMeasure st := by
  rw [scanMeasure, h]
  simp

theorem pyIsAlnumO_isSome {oc : Option Char} (h : pyIsAlnumO oc = true) :
    oc.isSome = true := by
  cases oc with
  | none => simp [pyIsAlnumO] at h
  | some c => rfl

theorem pyIsDigitO_isSome {oc : Option Char} (h : pyIsDigitO oc = true) :
    oc.isSome = true := by
  cases oc with
  | none => simp [pyIsDigitO] at h
  | some c => rfl

/-- `Scanner._get_name` (source lines 201-215): consume the maximal run of
alphanumeric characters starting at `current_char`, accumulating them in
order (`output += self.current_char`), and return the collected string. -/
def Scanner.get_name (st : ScanState) : String × ScanState :=
  if h : pyIsAlnumO st.current_char then
    let r := Scanner.get_name (Scanner.next_char st).2
    (⟨st.current_char.toList ++ r.1.data⟩, r.2)
  else ("", st)
termination_by scanMeasure st
decreasing_by
  exact next_char_measure_lt st (measure_pos_of_isSome (pyIsAlnumO_isSome h))

theorem get_name_measure_le (st : ScanState) :
    scanMeasure (Scanner.get_name st).2 ≤ scanMeasure st := by
  induction st using Scanner.get_name.induct with
  | case1 st halnum ih =>
    rw [Scanner.get_name, dif_pos halnum]
    exact le_trans ih (next_char_measure_le st)
  | case2 st halnum =>
    rw [Scanner.get_name, dif_neg halnum]

theorem get_name_measure_lt (st : ScanState)
    (halnum : pyIsAlnumO st.current_char = true) :
    scanMeasure (Scanner.get_name st).2 < scanMeasure st := by
  rw [Scanner.get_name, dif_pos halnum]
  exact lt_of_le_of_lt (get_name_measure_le _)
    (next_char_measure_lt st (measure_pos_of_isSome (pyIsAlnumO_isSome halnum)))

/-- `Scanner._get_number` (source lines 217-232): consume the maximal run of
digit characters starting at `current_char` and return the collected string
(the source then applies `int`, embedded as `pyInt`). -/
def Scanner.get_number (st : ScanState) : String × ScanState :=
  if h : pyIsDigitO st.current_char then
    let r := Scanner.get_number (Scanner.next_char st).2
    (⟨st.current_char.toList ++ r.1.data⟩, r.2)
  else ("", st)
termination_by scanMeasure st
decreasing_by
  exact next_char_measure_lt st (measure_pos_of_isSome (pyIsDigitO_isSome h))

/-- Python `int` on a string of decimal digits. -/
def pyInt (s : String) : Nat :=
  s.data.foldl (fun a c => a * 10 + (c.toNat - 48)) 0

theorem get_number_measure_le (st : ScanState) :
    scanMeasure (Scanner.get_number st).2 ≤ scanMeasure st := by
  induction st using Scanner.get_number.induct with
  | case1 st hdig ih =>
    rw [Scanner.get_number, dif_pos hdig]
    exact le_trans ih (next_char_measure_le st)
  | case2 st hdig =>
    rw [Scanner.get_number, dif_neg hdig]

theorem get_number_measure_lt (st : ScanState)
    (hdig : pyIsDigitO st.current_char = true) :
    scanMeasure (Scanner.get_number st).2 < scanMeasure st := by
  rw [Scanner.get_number, dif_pos hdig]
  exact lt_of_le_of_lt (get_number_measure_le _)
    (next_char_measure_lt st (measure_pos_of_isSome (pyIsDigitO_isSome hdig)))

/-- The characters the scanner's lexical grammar accounts for: alphanumeric,
whitespace, the hash (comments), and the seven punctuation characters. -/
def scanValidChar (c : Char) : Bool :=
  pyIsAlnumChar c || pyIsSpaceChar c || c = '#'
    || c ∈ [',', ';', '>', '(', ')', '.', ':']

/-- Well-formed scanner state: every unread character and the read buffer
hold only characters of the lexical grammar. -/
def ScanOK (st : ScanState) : Bool :=
  st.input.all scanValidChar && st.current_char.all scanValidChar

theorem scanOK_next_char {st : ScanState} (h : ScanOK st = true) :
    ScanOK (Scanner.next_char st).2 = true := by
  rw [ScanOK] at h ⊢
  rw [next_char_input, next_char_current]
  simp only [Bool.and_eq_true] at h ⊢
  constructor
  · rcases hinp : st.input with _ | ⟨c, t⟩
    · simp
    · have := h.1
      rw [hinp] at this
      simp at this ⊢
      exact this.2
  · rcases hinp : st.input with _ | ⟨c, t⟩
    · simp
    · have := h.1
      rw [hinp] at this
      simp at this ⊢
      exact this.1

theorem scanOK_hash_inner_inl {st st' : ScanState} (h : ScanOK st = true)
    (hh : Scanner.hash_inner st = .inl st') : ScanOK st' = true := by
  induction st using Scanner.hash_inner.induct with
  | case1 st hlt hnone =>
    rw [Scanner.hash_inner, if_pos hlt, dif_pos hnone] at hh
    injection hh with hh
    exact hh ▸ scanOK_next_char h
  | case2 st hlt hnone ih =>
    rw [Scanner.hash_inner, if_pos hlt, dif_neg hnone] at hh
    exact ih (scanOK_next_char h) hh
  | case3 st hge =>
    rw [Scanner.hash_inner, if_neg hge] at hh
    cases hh

theorem scanOK_hash_inner_inr {st st' : ScanState} (h : ScanOK st = true)
    (hh : Scanner.hash_inner st = .inr st') : ScanOK st' = true := by
  induction st using Scanner.hash_inner.induct with
  | case1 st hlt hnone =>
    rw [Scanner.hash_inner, if_pos hlt, dif_pos hnone] at hh
    cases hh
  | case2 st hlt hnone ih =>
    rw [Scanner.hash_inner, if_pos hlt, dif_neg hnone] at hh
    exact ih (scanOK_next_char h) hh
  | case3 st hge =>
    rw [Scanner.hash_inner, if_neg hge] at hh
    injection hh with hh
    exact hh ▸ h

theorem scanOK_hashes (st : ScanState) (n : Nat) (h : ScanOK st = true) :
    ScanOK { st with hashes := n } = true := h

theorem scanOK_nc_loop {st : ScanState} (h : ScanOK st = true) :
    ScanOK (Scanner.nc_loop st) = true := by
  induction st using Scanner.nc_loop.induct with
  | case1 st h3 stE hh =>
    rw [nc_loop_eq_inl h3 hh]
    exact scanOK_hash_inner_inl (scanOK_hashes st 0 h) hh
  | case2 st h3 st1 hh hch ih =>
    rw [nc_loop_eq_inr_hash h3 hh hch]
    exact ih (scanOK_next_char
      (scanOK_hashes st1 0 (scanOK_hash_inner_inr (scanOK_hashes st 0 h) hh)))
  | case3 st h3 st1 hh hch =>
    rw [nc_loop_eq_inr_nohash h3 hh hch]
    exact scanOK_hashes st1 0 (scanOK_hash_inner_inr (scanOK_hashes st 0 h) hh)
  | case4 st h3 hnl hch2 ih =>
    rw [nc_loop_eq_nl_hash h3 hnl hch2]
    exact ih (scanOK_next_char h)
  | case5 st h3 hnl hch2 =>
    rw [nc_loop_eq_nl_nohash h3 hnl hch2]
    exact scanOK_next_char h
  | case6 st h3 hnl hcn =>
    rw [nc_loop_eq_eof h3 hnl hcn]
    exact h
  | case7 st h3 hnl hcn ih =>
    rw [nc_loop_eq_other h3 hnl hcn]
    exact ih (scanOK_next_char h)

theorem scanOK_nncc {st : ScanState} (h : ScanOK st = true) :
    ScanOK (Scanner.next_non_comment_char st) = true := by
  rw [Scanner.next_non_comment_char]
  split
  · exact scanOK_nc_loop (scanOK_next_char h)
  · exact scanOK_next_char h

theorem scanOK_next_valid_char {st st' : ScanState} (h : ScanOK st = true)
    (hnvc : Scanner.next_valid_char st = .ok st') : ScanOK st' = true := by
  induction st using Scanner.next_valid_char.induct with
  | case1 st hc st1 hna hfatal =>
    rw [Scanner.next_valid_char, dif_pos hc, if_pos hna, if_pos hfatal] at hnvc
    cases hnvc
  | case2 st hc st1 hna hnp ih =>
    rw [Scanner.next_valid_char, dif_pos hc, if_pos hna, if_neg hnp] at hnvc
    exact ih (scanOK_nncc h) hnvc
  | case3 st hc st1 hna ih =>
    rw [Scanner.next_valid_char, dif_pos hc, if_neg hna] at hnvc
    exact ih (scanOK_nncc h) hnvc
  | case4 st hc =>
    rw [Scanner.next_valid_char, dif_neg hc] at hnvc
    injection hnvc with hnvc
    exact hnvc ▸ h

theorem scanOK_get_name {st : ScanState} (h : ScanOK st = true) :
    ScanOK (Scanner.get_name st).2 = true := by
  induction st using Scanner.get_name.induct with
  | case1 st halnum ih =>
    rw [Scanner.get_name, dif_pos halnum]
    exact ih (scanOK_next_char h)
  | case2 st halnum =>
    rw [Scanner.get_name, dif_neg halnum]
    exact h

theorem scanOK_get_number {st : ScanState} (h : ScanOK st = true) :
    ScanOK (Scanner.get_number st).2 = true := by
  induction st using Scanner.get_number.induct with
  | case1 st hdig ih =>
    rw [Scanner.get_number, dif_pos hdig]
    exact ih (scanOK_next_char h)
  | case2 st hdig =>
    rw [Scanner.get_number, dif_neg hdig]
    exact h

/-- The `char_dict` of `Scanner.get_symbol` (source lines 161-169), as the
partial map from a character to the punctuation token kind. -/
def Scanner.char_dict (c : Char) : Option Nat :=
  if c = ',' then some Scanner.COMMA
  else if c = ';' then some Scanner.SEMICOLON
  else if c = '>' then some Scanner.GREATER
  else if c = '(' then some Scanner.BRACK_OPEN
  else if c = ')' then some Scanner.BRACK_CLOSE
  else if c = '.' then some Scanner.DOT
  else if c = ':' then some Scanner.COLON
  else none

/-- `Scanner.get_symbol` (source lines 152-191): skip to the next valid
character (possibly aborting the session), record the position, then build
the symbol: punctuation per `char_dict` (advancing past it), `EOF` at end
of file, a keyword or name after `_get_name` (interning the string), or a
number after `_get_number`.  When none of these branches applies the symbol
is returned with its `type` still `None`.  (The source checks `char_dict`
membership before the end-of-file test; the empty string is never a
`char_dict` key, so testing end of file first is equivalent.) -/
def Scanner.get_symbol (st0 : ScanState) :
    Except Unit (Scanner.Symbol × ScanState) :=
  match Scanner.next_valid_char st0 with
  | .error e => .error e
  | .ok st =>
    let line := st.line_num
    let chn := st.char_num
    match st.current_char with
    | none => .ok (⟨some Scanner.EOF, none, line, chn⟩, st)
    | some c =>
      match Scanner.char_dict c with
      | some ty => .ok (⟨some ty, none, line, chn⟩,
          Scanner.next_non_comment_char st)
      | none =>
        if pyIsAlphaChar c then
          let r := Scanner.get_name st
          let ty := if r.1 ∈ Scanner.keywords_list then Scanner.KEYWORD
                    else Scanner.NAME
          let lk := r.2.names.lookup [r.1]
          .ok (⟨some ty, lk.2.head?, line, chn⟩, { r.2 with names := lk.1 })
        else if pyIsDigitChar c then
          let r := Scanner.get_number st
          .ok (⟨some Scanner.NUMBER, some (pyInt r.1), line, chn⟩, r.2)
        else .ok (⟨none, none, line, chn⟩, st)

theorem scanOK_names (st : ScanState) (nm : Names) (h : ScanOK st = true) :
    ScanOK { st with names := nm } = true := h

/-- Once the scanner has consumed the whole file (`current_char` holds the
empty read result), `get_symbol` returns an `EOF` symbol with an absent id
and leaves the state untouched, so every later call returns `EOF` again. -/
theorem get_symbol_at_eof (st : ScanState) (h : st.current_char = none) :
    Scanner.get_symbol st
      = .ok (⟨some Scanner.EOF, none, st.line_num, st.char_num⟩, st) := by
  have hnvc : Scanner.next_valid_char st = .ok st := by
    rw [Scanner.next_valid_char, dif_neg]
    rw [h]
    simp [pyIsSpaceO]
  rw [Scanner.get_symbol, hnvc]
  simp only [h]

theorem char_dict_none_of_alnum {c : Char} (h : pyIsAlnumChar c = true) :
    Scanner.char_dict c = none := by
  have hne : ∀ d : Char, pyIsAlnumChar d = false → ¬(c = d) := by
    intro d hd e
    subst e
    rw [h] at hd
    cases hd
  rw [Scanner.char_dict]
  rw [if_neg (hne ',' (by decide)), if_neg (hne ';' (by decide)),
      if_neg (hne '>' (by decide)), if_neg (hne '(' (by decide)),
      if_neg (hne ')' (by decide)), if_neg (hne '.' (by decide)),
      if_neg (hne ':' (by decide))]

theorem alnum_not_alpha_digit {c : Char} (h1 : pyIsAlnumChar c = true)
    (h2 : pyIsAlphaChar c = false) : pyIsDigitChar c = true := by
  rw [pyIsAlnumChar, Char.isAlphanum] at h1
  rw [pyIsAlphaChar] at h2
  rw [pyIsDigitChar]
  rw [h2] at h1
  simpa using h1

/-- On a well-formed scanner state, `get_symbol` preserves well-formedness,
never increases the measure, strictly decreases it unless it produced the
`EOF` symbol, and always yields a symbol with one of the eleven defined
kinds. -/
theorem get_symbol_progress {st0 st' : ScanState} {sym : Scanner.Symbol}
    (hok : ScanOK st0 = true)
    (h : Scanner.get_symbol st0 = .ok (sym, st')) :
    ScanOK st' = true
    ∧ scanMeasure st' ≤ scanMeasure st0
    ∧ (scanMeasure st' < scanMeasure st0 ∨ sym.stype = some Scanner.EOF)
    ∧ ∃ k, sym.stype = some k := by
  rw [Scanner.get_symbol] at h
  cases hnvc : Scanner.next_valid_char st0 with
  | error e =>
    rw [hnvc] at h
    cases h
  | ok st =>
    rw [hnvc] at h
    have hokst : ScanOK st = true := scanOK_next_valid_char hok hnvc
    have hmle : scanMeasure st ≤ scanMeasure st0 :=
      next_valid_char_measure_le _ _ hnvc
    have hexit := next_valid_char_exit _ _ hnvc
    cases hcc : st.current_char with
    | none =>
      simp only [hcc] at h
      simp only [Except.ok.injEq, Prod.mk.injEq] at h
      obtain ⟨hsym, hst⟩ := h
      subst hsym
      subst hst
      exact ⟨hokst, hmle, Or.inr rfl, Scanner.EOF, rfl⟩
    | some c =>
      have hvc : scanValidChar c = true := by
        rw [ScanOK] at hokst
        simp only [Bool.and_eq_true] at hokst
        have := hokst.2
        rw [hcc] at this
        simpa using this
      have hsp : pyIsSpaceChar c = false := by
        have h1 := hexit.1
        rw [hcc] at h1
        simp only [pyIsSpaceO] at h1
        simpa using h1
      have hhash : ¬(c = '#') := by
        intro e
        exact hexit.2 (by rw [hcc, e])
      have hm0 : 0 < scanMeasure st := measure_pos_of_current_some hcc
      rw [scanValidChar] at hvc
      simp only [Bool.or_eq_true, decide_eq_true_eq] at hvc
      rcases hvc with ((halnum | hsp2) | hhash2) | hmem
      · -- alphanumeric: name or number
        have hdict : Scanner.char_dict c = none := char_dict_none_of_alnum halnum
        simp only [hcc, hdict] at h
        cases halpha : pyIsAlphaChar c with
        | true =>
          rw [if_pos halpha] at h
          simp only [Except.ok.injEq, Prod.mk.injEq] at h
          obtain ⟨hsym, hst⟩ := h
          subst hsym
          subst hst
          have halnO : pyIsAlnumO st.current_char = true := by
            rw [hcc]
            exact halnum
          have hlt : scanMeasure (Scanner.get_name st).2 < scanMeasure st :=
            get_name_measure_lt st halnO
          refine ⟨scanOK_names _ _ (scanOK_get_name hokst), ?_, ?_, ?_⟩
          · exact le_trans (le_of_lt hlt) hmle
          · exact Or.inl (lt_of_lt_of_le hlt hmle)
          · exact ⟨_, rfl⟩
        | false =>
          have hdig : pyIsDigitChar c = true := alnum_not_alpha_digit halnum halpha
          rw [if_neg (by simp [halpha]), if_pos hdig] at h
          simp only [Except.ok.injEq, Prod.mk.injEq] at h
          obtain ⟨hsym, hst⟩ := h
          subst hsym
          subst hst
          have hdigO : pyIsDigitO st.current_char = true := by
            rw [hcc]
            exact hdig
          have hlt : scanMeasure (Scanner.get_number st).2 < scanMeasure st :=
            get_number_measure_lt st hdigO
          refine ⟨scanOK_get_number hokst, ?_, ?_, ?_⟩
          · exact le_trans (le_of_lt hlt) hmle
          · exact Or.inl (lt_of_lt_of_le hlt hmle)
          · exact ⟨_, rfl⟩
      · rw [hsp2] at hsp
        cases hsp
      · exact absurd hhash2 hhash
      · -- punctuation
        simp only [List.mem_cons, List.not_mem_nil, or_false] at hmem
        have hfin : ∀ k : Nat,
            (⟨some k, none, st.line_num, st.char_num⟩, Scanner.next_non_comment_char st)
              = ((sym : Scanner.Symbol), st') →
            ScanOK st' = true
            ∧ scanMeasure st' ≤ scanMeasure st0
            ∧ (scanMeasure st' < scanMeasure st0 ∨ sym.stype = some Scanner.EOF)
            ∧ ∃ k', sym.stype = some k' := by
          intro k hk
          rw [Prod.mk.injEq] at hk
          obtain ⟨hsym, hst⟩ := hk
          subst hsym
          subst hst
          have hlt : scanMeasure (Scanner.next_non_comment_char st) < scanMeasure st :=
            nncc_measure_lt st hm0
          refine ⟨scanOK_nncc hokst, ?_, ?_, ?_⟩
          · exact le_trans (le_of_lt hlt) hmle
          · exact Or.inl (lt_of_lt_of_le hlt hmle)
          · exact ⟨_, rfl⟩
        rcases hmem with e | e | e | e | e | e | e <;> subst e <;>
          simp only [hcc] at h
        · rw [show Scanner.char_dict ',' = some Scanner.COMMA from rfl] at h
          simp only [Except.ok.injEq] at h
          exact hfin _ h
        · rw [show Scanner.char_dict ';' = some Scanner.SEMICOLON from rfl] at h
          simp only [Except.ok.injEq] at h
          exact hfin _ h
        · rw [show Scanner.char_dict '>' = some Scanner.GREATER from rfl] at h
          simp only [Except.ok.injEq] at h
          exact hfin _ h
        · rw [show Scanner.char_dict '(' = some Scanner.BRACK_OPEN from rfl] at h
          simp only [Except.ok.injEq] at h
          exact hfin _ h
        · rw [show Scanner.char_dict ')' = some Scanner.BRACK_CLOSE from rfl] at h
          simp only [Except.ok.injEq] at h
          exact hfin _ h
        · rw [show Scanner.char_dict '.' = some Scanner.DOT from rfl] at h
          simp only [Except.ok.injEq] at h
          exact hfin _ h
        · rw [show Scanner.char_dict ':' = some Scanner.COLON from rfl] at h
          simp only [Except.ok.injEq] at h
          exact hfin _ h

/-- Ghost record of one collaborator invocation performed by the parser
(Python mutates the `devices`/`network`/`monitors` objects; the embedding
logs each call instead).  `errAt` records `self.error_count` at the moment
of the call, making the semantic-suppression rule observable. -/
inductive CallKind
  | mkDevice (device_id : Nat) (device_type : Nat) (qualifier : Option Nat)
  | mkConnection (out_id : Nat) (out_port : Option Nat) (in_id : Nat)
      (in_port : Option Nat)
  | mkMonitor (device_id : Nat) (port : Option Nat)
  | checkNet
deriving DecidableEq, Repr

structure SemCall where
  kind : CallKind
  errAt : Nat
deriving DecidableEq, Repr

/-- Modelled from the spec: the `devices.py`, `network.py` and `monitors.py`
modules are not among the analysed sources (only `parse.py` calls into
them), so they are embedded as an abstract environment, per spec §4.3-4.5:
each constant (`devices.AND`, `devices.NO_ERROR`, `network.DEVICE_ABSENT`,
`devices.Q_ID`, ... and the scanner's interned keyword IDs read by the
parser as `self.scanner.CLOCK_ID` etc., plus the eight error codes the
parser reserves in `__init__`) is an opaque natural number, and each
operation (`make_device`, `make_connection`, `make_monitor`, `get_device`
truthiness, `check_network`) is a deterministic function of the history of
collaborator calls made so far, returning the error code per its contract. -/
structure Env where
  kwCLOCK : Nat
  kwSWITCH : Nat
  kwAND : Nat
  kwNAND : Nat
  kwOR : Nat
  kwNOR : Nat
  kwDTYPE : Nat
  kwXOR : Nat
  kwMONITOR : Nat
  kwQ : Nat
  kwQBAR : Nat
  kwCLK : Nat
  kwDATA : Nat
  kwSET : Nat
  kwCLEAR : Nat
  kwDEVICES : Nat
  kwCONNECTIONS : Nat
  kwRC : Nat
  eEXPECTED_SYMBOL : Nat
  eEXPECTED_KEYWORD : Nat
  eEXPECTED_DEVICE_INSTANTIATION : Nat
  eUNEXPECTED_EOF : Nat
  eEXPECTED_EOF : Nat
  eEXPECTED_CONNECTION : Nat
  eEXPECTED_NAME_PORT_INPUT : Nat
  eNETWORK_INPUTS_UNCONNECTED : Nat
  dAND : Nat
  dOR : Nat
  dNAND : Nat
  dNOR : Nat
  dXOR : Nat
  dCLOCK : Nat
  dSWITCH : Nat
  dD_TYPE : Nat
  dRC : Nat
  dHIGH : Nat
  dLOW : Nat
  devNO_ERROR : Nat
  netNO_ERROR : Nat
  monNO_ERROR : Nat
  netDEVICE_ABSENT : Nat
  dQ_ID : Nat
  dQBAR_ID : Nat
  dCLK_ID : Nat
  dDATA_ID : Nat
  dSET_ID : Nat
  dCLEAR_ID : Nat
  make_device : List SemCall → Nat → Nat → Option Nat → Nat
  make_connection : List SemCall → Nat → Option Nat → Nat → Option Nat → Nat
  make_monitor : List SemCall → Nat → Option Nat → Nat
  get_device : List SemCall → Nat → Bool
  check_network : List SemCall → Bool

/-- The mutable state of a `parse.Parser` instance: the scanner it drives,
the current symbol (`None` before the first fetch), the error counter and
the suppressed-error list, plus two ghost logs: `calls` (collaborator
invocations, see `SemCall`) and `errlog` (the error codes passed to
`_handle_error`, in order). -/
structure ParseSt where
  scanner : ScanState
  symbol : Option Scanner.Symbol
  error_count : Nat
  suppressed_errors : List Nat
  calls : List SemCall
  errlog : List Nat
deriving DecidableEq, Repr

/-- Abnormal outcomes of the embedded parser: `fatal` is the scanner's
`sys.exit`, `pyErr` an uncaught Python exception (failed `assert`,
`AttributeError` on `None`, `KeyError`), and `spin` marks fuel exhaustion
(the corresponding Python loop has not terminated within the fuel). -/
inductive PFail
  | fatal
  | pyErr
  | spin
deriving DecidableEq, Repr

/-- Argument of `_skip_to_symbol`: a single symbol type or a list of them. -/
inductive StopSpec
  | one (t : Nat)
  | many (ts : List Nat)
deriving DecidableEq, Repr

/-- Argument of `_symbol_is_keyword` / `_expect_keyword`: a single keyword
ID or a list of keyword IDs. -/
inductive IdSpec
  | one (i : Nat)
  | many (l : List Nat)
deriving DecidableEq, Repr

/-- `self._device_type_keywords_list` (`parse.py` lines 64-74). -/
def Parser.device_type_keywords (e : Env) : List Nat :=
  [e.kwCLOCK, e.kwSWITCH, e.kwAND, e.kwNAND, e.kwOR, e.kwNOR, e.kwDTYPE,
   e.kwXOR, e.kwRC]

/-- `self.output_identifier_keywords_list` (`parse.py` lines 76-79). -/
def Parser.output_identifier_keywords (e : Env) : List Nat :=
  [e.kwQ, e.kwQBAR]

/-- `self.input_identifier_keywords_list` (`parse.py` lines 81-86). -/
def Parser.input_identifier_keywords (e : Env) : List Nat :=
  [e.kwCLK, e.kwDATA, e.kwSET, e.kwCLEAR]

/-- Python attribute access `self.symbol.<field>`: crashes when `symbol`
is `None`. -/
def Parser.getSym (ps : ParseSt) : Except PFail Scanner.Symbol :=
  match ps.symbol with
  | none => .error .pyErr
  | some s => .ok s

/-- `Parser._handle_error` without its optional skip (`parse.py` lines
437-510 minus line 512-513): count the error, log it (ghost `errlog`), and
add `EXPECTED_DEVICE_INSTANTIATION` to the suppressed list the first time
it is displayed; the displaying itself has no further state effect. -/
def Parser.handle_error_noskip (e : Env) (err : Nat) (ps : ParseSt) : ParseSt :=
  { ps with
    error_count := ps.error_count + 1
    errlog := ps.errlog ++ [err]
    suppressed_errors :=
      if err ∉ ps.suppressed_errors ∧ err = e.eEXPECTED_DEVICE_INSTANTIATION
      then ps.suppressed_errors ++ [err] else ps.suppressed_errors }

/-- The guard of `Parser._get_next_symbol`:
`self.symbol is not None and self.symbol.type == self.scanner.EOF`. -/
def Parser.symbol_at_eof (ps : ParseSt) : Bool :=
  match ps.symbol with
  | some s => s.stype == some Scanner.EOF
  | none => false

/-- `Parser._get_next_symbol` (`parse.py` lines 235-243): at an `EOF`
symbol, raise `UNEXPECTED_EOF` and keep the symbol; otherwise fetch the
next symbol from the scanner (whose fatal exit propagates). -/
def Parser.get_next_symbol (e : Env) (ps : ParseSt) : Except PFail ParseSt :=
  if Parser.symbol_at_eof ps then
    .ok (Parser.handle_error_noskip e e.eUNEXPECTED_EOF ps)
  else
    match Scanner.get_symbol ps.scanner with
    | .error _ => .error .fatal
    | .ok r => .ok { ps with scanner := r.2, symbol := some r.1 }

/-- `Parser._skip_to_symbol` (`parse.py` lines 515-529): advance until the
current symbol is the stopping symbol (or in the list of stopping symbols)
or `EOF`. -/
def Parser.skip_to_symbol (e : Env) (stop : StopSpec) :
    Nat → ParseSt → Except PFail ParseSt
  | 0, _ => .error .spin
  | fuel + 1, ps =>
    match ps.symbol with
    | none => .error .pyErr
    | some s =>
      let go : Bool :=
        match stop with
        | .one t => !(s.stype == some t) && !(s.stype == some Scanner.EOF)
        | .many ts => !(match s.stype with
            | some x => ts.contains x
            | none => false) && !(s.stype == some Scanner.EOF)
      if go then
        match Parser.get_next_symbol e ps with
        | .error f => .error f
        | .ok ps1 => Parser.skip_to_symbol e stop fuel ps1
      else .ok ps

/-- `Parser._handle_error` (`parse.py` lines 437-513): count, log, maybe
suppress, then skip to the stopping symbol when one was given. -/
def Parser.handle_error (e : Env) (err : Nat) (stop : Option StopSpec)
    (fuel : Nat) (ps : ParseSt) : Except PFail ParseSt :=
  let ps1 := Parser.handle_error_noskip e err ps
  match stop with
  | none => .ok ps1
  | some spec => Parser.skip_to_symbol e spec fuel ps1

/-- `Parser._symbol_is_keyword` (`parse.py` lines 274-285). -/
def Parser.symbol_is_keyword (ps : ParseSt) (id : IdSpec) :
    Except PFail Bool :=
  match ps.symbol with
  | none => .error .pyErr
  | some s =>
    match id with
    | .one i => .ok (s.stype == some Scanner.KEYWORD && s.id == some i)
    | .many l => .ok (s.stype == some Scanner.KEYWORD &&
        (match s.id with
         | some i => l.contains i
         | none => false))

/-- `Parser._expect_keyword` (`parse.py` lines 246-259). -/
def Parser.expect_keyword (e : Env) (id : IdSpec) (stop : Option StopSpec)
    (fuel : Nat) (ps : ParseSt) : Except PFail (Bool × ParseSt) :=
  match Parser.symbol_is_keyword ps id with
  | .error f => .error f
  | .ok true =>
    match Parser.get_next_symbol e ps with
    | .error f => .error f
    | .ok ps1 => .ok (true, ps1)
  | .ok false =>
    match Parser.handle_error e e.eEXPECTED_KEYWORD stop fuel ps with
    | .error f => .error f
    | .ok ps1 => .ok (false, ps1)

/-- `Parser._expect_symbol` (`parse.py` lines 261-272). -/
def Parser.expect_symbol (e : Env) (ty : Nat) (stop : Option StopSpec)
    (fuel : Nat) (ps : ParseSt) : Except PFail (Bool × ParseSt) :=
  match ps.symbol with
  | none => .error .pyErr
  | some s =>
    if s.stype = some ty then
      match Parser.get_next_symbol e ps with
      | .error f => .error f
      | .ok ps1 => .ok (true, ps1)
    else
      match Parser.handle_error e e.eEXPECTED_SYMBOL stop fuel ps with
      | .error f => .error f
      | .ok ps1 => .ok (false, ps1)

/-- `Parser._rule_device_identifier` (`parse.py` lines 368-373): capture
`self.symbol.id` before expecting a `NAME` symbol. -/
def Parser.rule_device_identifier (e : Env) (fuel : Nat) (ps : ParseSt) :
    Except PFail (Option Nat × ParseSt) :=
  match Parser.getSym ps with
  | .error f => .error f
  | .ok s =>
    let device_id := s.id
    match Parser.expect_symbol e Scanner.NAME none fuel ps with
    | .error f => .error f
    | .ok (true, ps1) => .ok (device_id, ps1)
    | .ok (false, ps1) => .ok (none, ps1)

/-- The `device_types` dictionary of `Parser._initialise_device`
(`parse.py` lines 134-144), keyed by scanner keyword ID. -/
def Parser.device_types (e : Env) : List (Nat × Nat) :=
  [(e.kwAND, e.dAND), (e.kwOR, e.dOR), (e.kwNAND, e.dNAND),
   (e.kwNOR, e.dNOR), (e.kwXOR, e.dXOR), (e.kwCLOCK, e.dCLOCK),
   (e.kwSWITCH, e.dSWITCH), (e.kwDTYPE, e.dD_TYPE), (e.kwRC, e.dRC)]

/-- The `id_translation` dictionary of `Parser._rule_input_identifier`
(`parse.py` lines 414-419). -/
def Parser.id_translation (e : Env) : List (Nat × Nat) :=
  [(e.kwCLK, e.dCLK_ID), (e.kwDATA, e.dDATA_ID), (e.kwSET, e.dSET_ID),
   (e.kwCLEAR, e.dCLEAR_ID)]

/-- Python dict lookup on a dict literal given as key/value pairs (a later
duplicate key overrides an earlier one, hence the search from the end);
looking up `None` misses every integer key. -/
def pyDictGet (l : List (Nat × Nat)) (k : Option Nat) : Option Nat :=
  match k with
  | none => none
  | some k => (l.reverse.find? (fun p => p.1 == k)).map (fun p => p.2)

/-- The `SWITCH` qualifier translation of `Parser._initialise_device`
(`parse.py` lines 148-154): `int(qualifier)` is the identity on the
integer id a `NUMBER` symbol carries (and on `None`, which is falsy), and
for a switch a qualifier of `1`/`0` becomes `devices.HIGH`/`devices.LOW`. -/
def Parser.switch_qualifier (e : Env) (device_type : Nat)
    (qualifier : Option Nat) : Option Nat :=
  if device_type = e.dSWITCH then
    (if qualifier = some 1 then some e.dHIGH
     else if qualifier = some 0 then some e.dLOW else qualifier)
  else qualifier

/-- The port translation of `Parser._rule_output_identifier` (`parse.py`
lines 391-396). -/
def Parser.q_or_qbar (e : Env) (port_id : Option Nat) : Nat :=
  if port_id = some e.kwQ then e.dQ_ID else e.dQBAR_ID

/-- `Parser._initialise_device` (`parse.py` lines 129-162): suppressed once
any error has been counted; otherwise translate the device-type keyword
through `device_types` (the `assert` fails on a miss), apply the `SWITCH`
qualifier translation (`int(qualifier)` is the identity on the integer id
that a `NUMBER` symbol carries), call `devices.make_device`, and raise its
error code unless `NO_ERROR`. -/
def Parser.initialise_device (e : Env) (fuel : Nat)
    (device_type_symbol : Option Nat) (device_id : Nat)
    (qualifier : Option Nat) (ps : ParseSt) :
    Except PFail (Option Bool × ParseSt) :=
  if 0 < ps.error_count then .ok (some false, ps)
  else
    match pyDictGet (Parser.device_types e) device_type_symbol with
    | none => .error .pyErr
    | some device_type =>
      let q2 := Parser.switch_qualifier e device_type qualifier
      let err := e.make_device ps.calls device_id device_type q2
      let ps1 := { ps with
        calls := ps.calls ++ [⟨.mkDevice device_id device_type q2,
          ps.error_count⟩] }
      if err = e.devNO_ERROR then .ok (some true, ps1)
      else
        match Parser.handle_error e err none fuel ps1 with
        | .error f => .error f
        | .ok ps2 => .ok (none, ps2)

/-- `Parser._make_connection` (`parse.py` lines 111-127): suppressed once
any error has been counted; otherwise call `network.make_connection` on the
two `(device_id, port_id)` pairs and raise its error code unless
`NO_ERROR`. -/
def Parser.make_connection (e : Env) (fuel : Nat) (out : Nat × Option Nat)
    (inp : Nat × Option Nat) (ps : ParseSt) :
    Except PFail (Option Bool × ParseSt) :=
  if 0 < ps.error_count then .ok (some false, ps)
  else
    let err := e.make_connection ps.calls out.1 out.2 inp.1 inp.2
    let ps1 := { ps with
      calls := ps.calls ++ [⟨.mkConnection out.1 out.2 inp.1 inp.2,
        ps.error_count⟩] }
    if err = e.netNO_ERROR then .ok (some true, ps1)
    else
      match Parser.handle_error e err none fuel ps1 with
      | .error f => .error f
      | .ok ps2 => .ok (some false, ps2)

/-- `Parser._monitor_output` (`parse.py` lines 100-109): suppressed once
any error has been counted; otherwise call `monitors.make_monitor` and
raise its error code unless `NO_ERROR` (falling through returns `None`). -/
def Parser.monitor_output (e : Env) (fuel : Nat) (output_id : Nat)
    (output_port : Option Nat) (ps : ParseSt) :
    Except PFail (Option Bool × ParseSt) :=
  if 0 < ps.error_count then .ok (some false, ps)
  else
    let err := e.make_monitor ps.calls output_id output_port
    let ps1 := { ps with
      calls := ps.calls ++ [⟨.mkMonitor output_id output_port,
        ps.error_count⟩] }
    if err = e.monNO_ERROR then .ok (some true, ps1)
    else
      match Parser.handle_error e err none fuel ps1 with
      | .error f => .error f
      | .ok ps2 => .ok (none, ps2)

/-- `Parser._rule_output_identifier` (`parse.py` lines 375-401). -/
def Parser.rule_output_identifier (e : Env) (fuel : Nat) (ps : ParseSt) :
    Except PFail (Option (Nat × Option Nat) × ParseSt) :=
  match Parser.rule_device_identifier e fuel ps with
  | .error f => .error f
  | .ok (none, ps1) =>
    .ok (none, Parser.handle_error_noskip e e.netDEVICE_ABSENT ps1)
  | .ok (some did, ps1) =>
    if e.get_device ps1.calls did = false ∧ ps1.error_count = 0 then
      .ok (none, Parser.handle_error_noskip e e.netDEVICE_ABSENT ps1)
    else
      match Parser.getSym ps1 with
      | .error f => .error f
      | .ok s =>
        if s.stype = some Scanner.DOT then
          match Parser.get_next_symbol e ps1 with
          | .error f => .error f
          | .ok ps2 =>
            match Parser.getSym ps2 with
            | .error f => .error f
            | .ok s2 =>
              let port_id := s2.id
              match Parser.expect_keyword e
                  (.many (Parser.output_identifier_keywords e)) none fuel ps2 with
              | .error f => .error f
              | .ok (true, ps3) =>
                .ok (some (did, some (Parser.q_or_qbar e port_id)), ps3)
              | .ok (false, ps3) => .ok (none, ps3)
        else .ok (some (did, none), ps1)

/-- `Parser._rule_input_identifier` (`parse.py` lines 403-435). -/
def Parser.rule_input_identifier (e : Env) (fuel : Nat) (ps : ParseSt) :
    Except PFail (Option (Nat × Option Nat) × ParseSt) :=
  match Parser.rule_device_identifier e fuel ps with
  | .error f => .error f
  | .ok (none, ps1) =>
    .ok (none, Parser.handle_error_noskip e e.netDEVICE_ABSENT ps1)
  | .ok (some did, ps1) =>
    if e.get_device ps1.calls did = false ∧ ps1.error_count = 0 then
      .ok (none, Parser.handle_error_noskip e e.netDEVICE_ABSENT ps1)
    else
      match Parser.expect_symbol e Scanner.DOT
          (some (.one Scanner.SEMICOLON)) fuel ps1 with
      | .error f => .error f
      | .ok (false, ps2) => .ok (none, ps2)
      | .ok (true, ps2) =>
        match Parser.getSym ps2 with
        | .error f => .error f
        | .ok s =>
          if s.stype = some Scanner.NAME then
            let port_id := s.id
            match Parser.get_next_symbol e ps2 with
            | .error f => .error f
            | .ok ps3 => .ok (some (did, port_id), ps3)
          else
            match Parser.symbol_is_keyword ps2
                (.many (Parser.input_identifier_keywords e)) with
            | .error f => .error f
            | .ok true =>
              match pyDictGet (Parser.id_translation e) s.id with
              | none => .error .pyErr
              | some port_id =>
                match Parser.get_next_symbol e ps2 with
                | .error f => .error f
                | .ok ps3 => .ok (some (did, some port_id), ps3)
            | .ok false =>
              .ok (none,
                Parser.handle_error_noskip e e.eEXPECTED_NAME_PORT_INPUT ps2)

/-- `Parser._rule_device_name_init` (`parse.py` lines 296-308): parse the
device name, an optional `( NUMBER )` qualifier (captured before the
`NUMBER` check), then initialise the device. -/
def Parser.rule_device_name_init (e : Env) (fuel : Nat)
    (device_type : Option Nat) (ps : ParseSt) :
    Except PFail (Option Bool × ParseSt) :=
  match Parser.rule_device_identifier e fuel ps with
  | .error f => .error f
  | .ok (none, ps1) => .ok (none, ps1)
  | .ok (some device_name, ps1) =>
    match Parser.getSym ps1 with
    | .error f => .error f
    | .ok s =>
      if s.stype = some Scanner.BRACK_OPEN then
        match Parser.get_next_symbol e ps1 with
        | .error f => .error f
        | .ok ps2 =>
          match Parser.getSym ps2 with
          | .error f => .error f
          | .ok s2 =>
            let qualifier := s2.id
            match Parser.expect_symbol e Scanner.NUMBER none fuel ps2 with
            | .error f => .error f
            | .ok (true, ps3) =>
              match Parser.expect_symbol e Scanner.BRACK_CLOSE none fuel ps3 with
              | .error f => .error f
              | .ok (_, ps4) =>
                Parser.initialise_device e fuel device_type device_name
                  qualifier ps4
            | .ok (false, ps3) =>
              Parser.initialise_device e fuel device_type device_name
                qualifier ps3
      else Parser.initialise_device e fuel device_type device_name none ps1

/-- The skip-on-failed-rule step of `Parser._rule_one_or_more` (`parse.py`
lines 352-354): when the rule returned `None` and a separator or stopping
symbol was given, skip to the stopping symbol (Python would raise
`TypeError` inside `_skip_to_symbol` were the stopping symbol `None`). -/
def Parser.maybe_skip_failed_rule (e : Env) (failed : Bool)
    (sep stop : Option Nat) (fuel : Nat) (ps : ParseSt) :
    Except PFail ParseSt :=
  if failed ∧ (sep.isSome ∨ stop.isSome) then
    match stop with
    | some t => Parser.skip_to_symbol e (.one t) fuel ps
    | none => .error .pyErr
  else .ok ps

/-- The `while True` loop of `Parser._rule_one_or_more` (`parse.py` lines
348-365): at the separator, fetch and run the rule again (skipping to the
stopping symbol when the rule failed); at the stopping symbol, fetch and
stop; at `EOF`, raise `UNEXPECTED_EOF` and stop; otherwise raise
`EXPECTED_SYMBOL` with the stopping symbol and continue. -/
def Parser.rule_one_or_more_loop (e : Env) {α : Type} [DecidableEq α]
    (rule_func : Nat → ParseSt → Except PFail (Option α × ParseSt))
    (sep stop : Option Nat) :
    Nat → ParseSt → Except PFail (List (Option α) × ParseSt)
  | 0, _ => .error .spin
  | fuel + 1, ps =>
    match ps.symbol with
    | none => .error .pyErr
    | some s =>
      if s.stype = sep then
        match Parser.get_next_symbol e ps with
        | .error f => .error f
        | .ok ps1 =>
          match rule_func fuel ps1 with
          | .error f => .error f
          | .ok (r, ps2) =>
            match Parser.maybe_skip_failed_rule e (decide (r = none))
                sep stop fuel ps2 with
            | .error f => .error f
            | .ok ps3 =>
              match Parser.rule_one_or_more_loop e rule_func sep stop fuel ps3 with
              | .error f => .error f
              | .ok (rs, ps4) => .ok (r :: rs, ps4)
      else if s.stype = stop then
        match Parser.get_next_symbol e ps with
        | .error f => .error f
        | .ok ps1 => .ok ([], ps1)
      else if s.stype = some Scanner.EOF then
        .ok ([], Parser.handle_error_noskip e e.eUNEXPECTED_EOF ps)
      else
        match Parser.handle_error e e.eEXPECTED_SYMBOL (stop.map .one) fuel ps with
        | .error f => .error f
        | .ok ps1 => Parser.rule_one_or_more_loop e rule_func sep stop fuel ps1

/-- `Parser._rule_one_or_more` (`parse.py` lines 335-366): run the rule
once, then loop; returns the list of the rules' results. -/
def Parser.rule_one_or_more (e : Env) {α : Type} [DecidableEq α]
    (rule_func : Nat → ParseSt → Except PFail (Option α × ParseSt))
    (sep stop : Option Nat) (fuel : Nat) (ps : ParseSt) :
    Except PFail (List (Option α) × ParseSt) :=
  match rule_func fuel ps with
  | .error f => .error f
  | .ok (r0, ps1) =>
    match Parser.rule_one_or_more_loop e rule_func sep stop fuel ps1 with
    | .error f => .error f
    | .ok (rs, ps2) => .ok (r0 :: rs, ps2)

/-- `Parser._rule_device_instantiation` (`parse.py` lines 287-294): capture
the device-type keyword id, expect it to be a device-type keyword (skipping
to `;` otherwise), then parse one or more `device_name_init`. -/
def Parser.rule_device_instantiation (e : Env) (fuel : Nat) (ps : ParseSt) :
    Except PFail ParseSt :=
  match Parser.getSym ps with
  | .error f => .error f
  | .ok s =>
    let device_type := s.id
    match Parser.expect_keyword e (.many (Parser.device_type_keywords e))
        (some (.one Scanner.SEMICOLON)) fuel ps with
    | .error f => .error f
    | .ok (true, ps1) =>
      match Parser.rule_one_or_more e
          (fun f p => Parser.rule_device_name_init e f device_type p)
          (some Scanner.COMMA) (some Scanner.SEMICOLON) fuel ps1 with
      | .error f => .error f
      | .ok (_, ps2) => .ok ps2
    | .ok (false, ps1) => .ok ps1

/-- `Parser._rule_connection` (`parse.py` lines 310-323). -/
def Parser.rule_connection (e : Env) (fuel : Nat) (ps : ParseSt) :
    Except PFail ParseSt :=
  match Parser.rule_output_identifier e fuel ps with
  | .error f => .error f
  | .ok (out?, ps1) =>
    let step1 : Except PFail ParseSt :=
      match out? with
      | none => Parser.skip_to_symbol e (.one Scanner.SEMICOLON) fuel ps1
      | some out =>
        match Parser.expect_symbol e Scanner.GREATER
            (some (.one Scanner.SEMICOLON)) fuel ps1 with
        | .error f => .error f
        | .ok (true, ps2) =>
          match Parser.rule_input_identifier e fuel ps2 with
          | .error f => .error f
          | .ok (none, ps3) =>
            Parser.skip_to_symbol e (.one Scanner.SEMICOLON) fuel ps3
          | .ok (some inp, ps3) =>
            match Parser.make_connection e fuel out inp ps3 with
            | .error f => .error f
            | .ok (_, ps4) => .ok ps4
        | .ok (false, ps2) => .ok ps2
    match step1 with
    | .error f => .error f
    | .ok ps5 =>
      match Parser.expect_symbol e Scanner.SEMICOLON
          (some (.one Scanner.SEMICOLON)) fuel ps5 with
      | .error f => .error f
      | .ok (true, ps6) => .ok ps6
      | .ok (false, ps6) =>
        match Parser.get_next_symbol e ps6 with
        | .error f => .error f
        | .ok ps7 => .ok ps7

/-- The `for output in outputs` loop of `Parser._rule_monitor` (`parse.py`
lines 331-333). -/
def Parser.monitor_fold (e : Env) (fuel : Nat) :
    List (Option (Nat × Option Nat)) → ParseSt → Except PFail ParseSt
  | [], ps => .ok ps
  | none :: rest, ps => Parser.monitor_fold e fuel rest ps
  | some out :: rest, ps =>
    match Parser.monitor_output e fuel out.1 out.2 ps with
    | .error f => .error f
    | .ok (_, ps1) => Parser.monitor_fold e fuel rest ps1

/-- `Parser._rule_monitor` (`parse.py` lines 325-333). -/
def Parser.rule_monitor (e : Env) (fuel : Nat) (ps : ParseSt) :
    Except PFail ParseSt :=
  match Parser.expect_keyword e (.one e.kwMONITOR) none fuel ps with
  | .error f => .error f
  | .ok (_, ps1) =>
    match Parser.rule_one_or_more e
        (fun f p => Parser.rule_output_identifier e f p)
        (some Scanner.COMMA) (some Scanner.SEMICOLON) fuel ps1 with
    | .error f => .error f
    | .ok (outputs, ps2) => Parser.monitor_fold e fuel outputs ps2

/-- The device-section `while True` loop of `Parser.parse_network`
(`parse.py` lines 178-193).  The returned flag is `true` when the loop hit
`EOF` (after which `parse_network` finishes immediately) and `false` when
it broke at the `CONNECTIONS` keyword. -/
def Parser.device_loop (e : Env) : Nat → ParseSt → Except PFail (Bool × ParseSt)
  | 0, _ => .error .spin
  | fuel + 1, ps =>
    match ps.symbol with
    | none => .error .pyErr
    | some s =>
      if s.stype = some Scanner.EOF then
        .ok (true, Parser.handle_error_noskip e e.eUNEXPECTED_EOF ps)
      else
        match Parser.symbol_is_keyword ps
            (.many (Parser.device_type_keywords e)) with
        | .error f => .error f
        | .ok true =>
          match Parser.rule_device_instantiation e fuel ps with
          | .error f => .error f
          | .ok ps1 => Parser.device_loop e fuel ps1
        | .ok false =>
          match Parser.symbol_is_keyword ps (.one e.kwCONNECTIONS) with
          | .error f => .error f
          | .ok true => .ok (false, ps)
          | .ok false =>
            match Parser.handle_error e e.eEXPECTED_DEVICE_INSTANTIATION
                (some (.one Scanner.SEMICOLON)) fuel ps with
            | .error f => .error f
            | .ok ps1 =>
              match ps1.symbol with
              | none => .error .pyErr
              | some s2 =>
                if s2.stype ≠ some Scanner.EOF then
                  match Parser.get_next_symbol e ps1 with
                  | .error f => .error f
                  | .ok ps2 => Parser.device_loop e fuel ps2
                else Parser.device_loop e fuel ps1

/-- The connections-section `while True` loop of `Parser.parse_network`
(`parse.py` lines 203-214). -/
def Parser.conn_loop (e : Env) : Nat → ParseSt → Except PFail ParseSt
  | 0, _ => .error .spin
  | fuel + 1, ps =>
    match Parser.symbol_is_keyword ps (.one e.kwMONITOR) with
    | .error f => .error f
    | .ok true => Parser.rule_monitor e fuel ps
    | .ok false =>
      match ps.symbol with
      | none => .error .pyErr
      | some s =>
        if s.stype = some Scanner.EOF then .ok ps
        else if s.stype = some Scanner.NAME then
          match Parser.rule_connection e fuel ps with
          | .error f => .error f
          | .ok ps1 => Parser.conn_loop e fuel ps1
        else
          match Parser.handle_error e e.eEXPECTED_CONNECTION
              (some (.one Scanner.SEMICOLON)) fuel ps with
          | .error f => .error f
          | .ok ps1 =>
            match ps1.symbol with
            | none => .error .pyErr
            | some s2 =>
              if s2.stype ≠ some Scanner.EOF then
                match Parser.get_next_symbol e ps1 with
                | .error f => .error f
                | .ok ps2 => Parser.conn_loop e fuel ps2
              else Parser.conn_loop e fuel ps1

/-- `Parser._finish_parsing` (`parse.py` lines 223-233): when no error was
counted, invoke `network.check_network()` (logged as a `checkNet` call) and
raise a single aggregate `NETWORK_INPUTS_UNCONNECTED` error when it reports
`False`; the result is `error_count == 0` on the final state. -/
def Parser.finish_parsing (e : Env) (ps : ParseSt) : Bool × ParseSt :=
  let ps1 :=
    if ps.error_count = 0 then
      let psc := { ps with calls := ps.calls ++ [⟨.checkNet, ps.error_count⟩] }
      if e.check_network ps.calls = false then
        Parser.handle_error_noskip e e.eNETWORK_INPUTS_UNCONNECTED psc
      else psc
    else ps
  (ps1.error_count == 0, ps1)

/-- `Parser.parse_network` (`parse.py` lines 164-221): reset the error
count and symbol, expect `DEVICES :`, run the device loop (finishing at
once on its `EOF` exit), assert and expect `CONNECTIONS :`, run the
connections loop, raise `EXPECTED_EOF` when input remains, and finish. -/
def Parser.parse_network (e : Env) (fuel : Nat) (ps0 : ParseSt) :
    Except PFail (Bool × ParseSt) :=
  let ps := { ps0 with error_count := 0, symbol := none }
  match Parser.get_next_symbol e ps with
  | .error f => .error f
  | .ok ps1 =>
    match Parser.expect_keyword e (.one e.kwDEVICES) none fuel ps1 with
    | .error f => .error f
    | .ok (_, ps2) =>
      match Parser.expect_symbol e Scanner.COLON none fuel ps2 with
      | .error f => .error f
      | .ok (_, ps3) =>
        match Parser.device_loop e fuel ps3 with
        | .error f => .error f
        | .ok (true, ps4) => .ok (Parser.finish_parsing e ps4)
        | .ok (false, ps4) =>
          match Parser.symbol_is_keyword ps4 (.one e.kwCONNECTIONS) with
          | .error f => .error f
          | .ok false => .error .pyErr
          | .ok true =>
            match Parser.expect_keyword e (.one e.kwCONNECTIONS) none fuel ps4 with
            | .error f => .error f
            | .ok (_, ps5) =>
              match Parser.expect_symbol e Scanner.COLON none fuel ps5 with
              | .error f => .error f
              | .ok (_, ps6) =>
                match Parser.conn_loop e fuel ps6 with
                | .error f => .error f
                | .ok ps7 =>
                  match ps7.symbol with
                  | none => .error .pyErr
                  | some s =>
                    let ps8 := if s.stype ≠ some Scanner.EOF then
                        Parser.handle_error_noskip e e.eEXPECTED_EOF ps7
                      else ps7
                    .ok (Parser.finish_parsing e ps8)

/-- Relation between parser states across one parser operation: the ghost
logs only grow by appending, the error counter advances in lockstep with
the error log, and every collaborator call appended was made while the
error count was zero (the semantic-suppression discipline). -/
def Grows (ps ps' : ParseSt) : Prop :=
  ∃ newCalls newErrs,
    ps'.calls = ps.calls ++ newCalls
    ∧ ps'.errlog = ps.errlog ++ newErrs
    ∧ ps'.error_count = ps.error_count + newErrs.length
    ∧ ∀ c ∈ newCalls, c.errAt = 0

theorem grows_refl (ps : ParseSt) : Grows ps ps :=
  ⟨[], [], by simp, by simp, by simp, by simp⟩

theorem grows_trans {a b c : ParseSt} (h1 : Grows a b) (h2 : Grows b c) :
    Grows a c := by
  obtain ⟨c1, e1, hc1, he1, hn1, hz1⟩ := h1
  obtain ⟨c2, e2, hc2, he2, hn2, hz2⟩ := h2
  refine ⟨c1 ++ c2, e1 ++ e2, ?_, ?_, ?_, ?_⟩
  · rw [hc2, hc1, List.append_assoc]
  · rw [he2, he1, List.append_assoc]
  · rw [hn2, hn1]
    simp [Nat.add_assoc]
  · intro x hx
    rcases List.mem_append.mp hx with hm | hm
    · exact hz1 x hm
    · exact hz2 x hm

theorem grows_noskip (e : Env) (err : Nat) (ps : ParseSt) :
    Grows ps (Parser.handle_error_noskip e err ps) :=
  ⟨[], [err], by simp [Parser.handle_error_noskip],
    by simp [Parser.handle_error_noskip],
    by simp [Parser.handle_error_noskip], by simp⟩

theorem grows_get_next_symbol {e : Env} {ps ps' : ParseSt}
    (h : Parser.get_next_symbol e ps = .ok ps') : Grows ps ps' := by
  rw [Parser.get_next_symbol] at h
  split at h
  · injection h with h
    subst h
    exact grows_noskip e _ ps
  · split at h
    · cases h
    · injection h with h
      subst h
      exact ⟨[], [], by simp, by simp, by simp, by simp⟩

theorem grows_skip_to_symbol {e : Env} {stop : StopSpec} :
    ∀ {fuel : Nat} {ps ps' : ParseSt},
      Parser.skip_to_symbol e stop fuel ps = .ok ps' → Grows ps ps' := by
  intro fuel
  induction fuel with
  | zero =>
    intro ps ps' h
    cases h
  | succ n ih =>
    intro ps ps' h
    rw [Parser.skip_to_symbol] at h
    cases hsym : ps.symbol with
    | none =>
      rw [hsym] at h
      cases h
    | some s =>
      rw [hsym] at h
      simp only [] at h
      split at h
      · cases hg : Parser.get_next_symbol e ps with
        | error f =>
          rw [hg] at h
          cases h
        | ok ps1 =>
          rw [hg] at h
          exact grows_trans (grows_get_next_symbol hg) (ih h)
      · injection h with h
        subst h
        exact grows_refl ps

theorem grows_handle_error {e : Env} {err : Nat} {stop : Option StopSpec}
    {fuel : Nat} {ps ps' : ParseSt}
    (h : Parser.handle_error e err stop fuel ps = .ok ps') : Grows ps ps' := by
  rw [Parser.handle_error.eq_def] at h
  cases stop with
  | none =>
    injection h with h
    subst h
    exact grows_noskip e err ps
  | some spec =>
    exact grows_trans (grows_noskip e err ps) (grows_skip_to_symbol h)

theorem grows_expect_keyword {e : Env} {id : IdSpec} {stop : Option StopSpec}
    {fuel : Nat} {ps ps' : ParseSt} {b : Bool}
    (h : Parser.expect_keyword e id stop fuel ps = .ok (b, ps')) :
    Grows ps ps' := by
  rw [Parser.expect_keyword] at h
  split at h
  · cases h
  · split at h
    · cases h
    · injection h with h
      rw [Prod.mk.injEq] at h
      obtain ⟨_, h2⟩ := h
      subst h2
      exact grows_get_next_symbol (by assumption)
  · split at h
    · cases h
    · injection h with h
      rw [Prod.mk.injEq] at h
      obtain ⟨_, h2⟩ := h
      subst h2
      exact grows_handle_error (by assumption)

theorem grows_expect_symbol {e : Env} {ty : Nat} {stop : Option StopSpec}
    {fuel : Nat} {ps ps' : ParseSt} {b : Bool}
    (h : Parser.expect_symbol e ty stop fuel ps = .ok (b, ps')) :
    Grows ps ps' := by
  rw [Parser.expect_symbol] at h
  split at h
  · cases h
  · split at h
    · split at h
      · cases h
      · injection h with h
        rw [Prod.mk.injEq] at h
        obtain ⟨_, h2⟩ := h
        subst h2
        exact grows_get_next_symbol (by assumption)
    · split at h
      · cases h
      · injection h with h
        rw [Prod.mk.injEq] at h
        obtain ⟨_, h2⟩ := h
        subst h2
        exact grows_handle_error (by assumption)

theorem grows_rule_device_identifier {e : Env} {fuel : Nat}
    {ps ps' : ParseSt} {r : Option Nat}
    (h : Parser.rule_device_identifier e fuel ps = .ok (r, ps')) :
    Grows ps ps' := by
  rw [Parser.rule_device_identifier] at h
  split at h
  · cases h
  · split at h
    · cases h
    · injection h with h
      rw [Prod.mk.injEq] at h
      obtain ⟨_, h2⟩ := h
      subst h2
      exact grows_expect_symbol (by assumption)
    · injection h with h
      rw [Prod.mk.injEq] at h
      obtain ⟨_, h2⟩ := h
      subst h2
      exact grows_expect_symbol (by assumption)

theorem grows_log_call (ps : ParseSt) (k : CallKind)
    (hz : ps.error_count = 0) :
    Grows ps { ps with calls := ps.calls ++ [⟨k, ps.error_count⟩] } :=
  ⟨[⟨k, ps.error_count⟩], [], by simp, by simp, by simp, by simp [hz]⟩

theorem grows_initialise_device {e : Env} {fuel : Nat} {dts : Option Nat}
    {did : Nat} {q : Option Nat} {ps ps' : ParseSt} {r : Option Bool}
    (h : Parser.initialise_device e fuel dts did q ps = .ok (r, ps')) :
    Grows ps ps' := by
  rw [Parser.initialise_device] at h
  split at h
  · injection h with h
    rw [Prod.mk.injEq] at h
    obtain ⟨_, h2⟩ := h
    subst h2
    exact grows_refl ps
  · next hguard =>
    have hz : ps.error_count = 0 := by omega
    split at h
    · cases h
    · dsimp only [] at h
      split at h
      · injection h with h
        rw [Prod.mk.injEq] at h
        obtain ⟨_, h2⟩ := h
        subst h2
        exact grows_log_call ps _ hz
      · split at h
        · cases h
        · injection h with h
          rw [Prod.mk.injEq] at h
          obtain ⟨_, h2⟩ := h
          subst h2
          exact grows_trans (grows_log_call ps _ hz)
            (grows_handle_error (by assumption))

theorem grows_make_connection {e : Env} {fuel : Nat}
    {out inp : Nat × Option Nat} {ps ps' : ParseSt} {r : Option Bool}
    (h : Parser.make_connection e fuel out inp ps = .ok (r, ps')) :
    Grows ps ps' := by
  rw [Parser.make_connection] at h
  split at h
  · injection h with h
    rw [Prod.mk.injEq] at h
    obtain ⟨_, h2⟩ := h
    subst h2
    exact grows_refl ps
  · next hguard =>
    have hz : ps.error_count = 0 := by omega
    dsimp only [] at h
    split at h
    · injection h with h
      rw [Prod.mk.injEq] at h
      obtain ⟨_, h2⟩ := h
      subst h2
      exact grows_log_call ps _ hz
    · split at h
      · cases h
      · injection h with h
        rw [Prod.mk.injEq] at h
        obtain ⟨_, h2⟩ := h
        subst h2
        exact grows_trans (grows_log_call ps _ hz)
          (grows_handle_error (by assumption))

theorem grows_monitor_output {e : Env} {fuel : Nat} {oid : Nat}
    {oport : Option Nat} {ps ps' : ParseSt} {r : Option Bool}
    (h : Parser.monitor_output e fuel oid oport ps = .ok (r, ps')) :
    Grows ps ps' := by
  rw [Parser.monitor_output] at h
  split at h
  · injection h with h
    rw [Prod.mk.injEq] at h
    obtain ⟨_, h2⟩ := h
    subst h2
    exact grows_refl ps
  · next hguard =>
    have hz : ps.error_count = 0 := by omega
    dsimp only [] at h
    split at h
    · injection h with h
      rw [Prod.mk.injEq] at h
      obtain ⟨_, h2⟩ := h
      subst h2
      exact grows_log_call ps _ hz
    · split at h
      · cases h
      · injection h with h
        rw [Prod.mk.injEq] at h
        obtain ⟨_, h2⟩ := h
        subst h2
        exact grows_trans (grows_log_call ps _ hz)
          (grows_handle_error (by assumption))

theorem grows_rule_output_identifier {e : Env} {fuel : Nat} {ps ps' : ParseSt}
    {r : Option (Nat × Option Nat)}
    (h : Parser.rule_output_identifier e fuel ps = .ok (r, ps')) :
    Grows ps ps' := by
  rw [Parser.rule_output_identifier] at h
  split at h
  · cases h
  · next ps1 heq =>
    injection h with h
    rw [Prod.mk.injEq] at h
    obtain ⟨_, h2⟩ := h
    subst h2
    exact grows_trans (grows_rule_device_identifier heq) (grows_noskip e _ ps1)
  · next did ps1 heq =>
    split at h
    · injection h with h
      rw [Prod.mk.injEq] at h
      obtain ⟨_, h2⟩ := h
      subst h2
      exact grows_trans (grows_rule_device_identifier heq) (grows_noskip e _ ps1)
    · split at h
      · cases h
      · split at h
        · split at h
          · cases h
          · next ps2 hg =>
            split at h
            · cases h
            · split at h
              · cases h
              · next ps3 hek =>
                injection h with h
                rw [Prod.mk.injEq] at h
                obtain ⟨_, h2⟩ := h
                subst h2
                exact grows_trans (grows_rule_device_identifier heq)
                  (grows_trans (grows_get_next_symbol hg)
                    (grows_expect_keyword hek))
              · next ps3 hek =>
                injection h with h
                rw [Prod.mk.injEq] at h
                obtain ⟨_, h2⟩ := h
                subst h2
                exact grows_trans (grows_rule_device_identifier heq)
                  (grows_trans (grows_get_next_symbol hg)
                    (grows_expect_keyword hek))
        · injection h with h
          rw [Prod.mk.injEq] at h
          obtain ⟨_, h2⟩ := h
          subst h2
          exact grows_rule_device_identifier heq

theorem grows_rule_input_identifier {e : Env} {fuel : Nat} {ps ps' : ParseSt}
    {r : Option (Nat × Option Nat)}
    (h : Parser.rule_input_identifier e fuel ps = .ok (r, ps')) :
    Grows ps ps' := by
  rw [Parser.rule_input_identifier] at h
  split at h
  · cases h
  · next ps1 heq =>
    injection h with h
    rw [Prod.mk.injEq] at h
    obtain ⟨_, h2⟩ := h
    subst h2
    exact grows_trans (grows_rule_device_identifier heq) (grows_noskip e _ ps1)
  · next did ps1 heq =>
    split at h
    · injection h with h
      rw [Prod.mk.injEq] at h
      obtain ⟨_, h2⟩ := h
      subst h2
      exact grows_trans (grows_rule_device_identifier heq) (grows_noskip e _ ps1)
    · split at h
      · cases h
      · next ps2 hes =>
        injection h with h
        rw [Prod.mk.injEq] at h
        obtain ⟨_, h2⟩ := h
        subst h2
        exact grows_trans (grows_rule_device_identifier heq)
          (grows_expect_symbol hes)
      · next ps2 hes =>
        split at h
        · cases h
        · split at h
          · split at h
            · cases h
            · next ps3 hg =>
              injection h with h
              rw [Prod.mk.injEq] at h
              obtain ⟨_, h2⟩ := h
              subst h2
              exact grows_trans (grows_rule_device_identifier heq)
                (grows_trans (grows_expect_symbol hes)
                  (grows_get_next_symbol hg))
          · split at h
            · cases h
            · split at h
              · cases h
              · split at h
                · cases h
                · next ps3 hg =>
                  injection h with h
                  rw [Prod.mk.injEq] at h
                  obtain ⟨_, h2⟩ := h
                  subst h2
                  exact grows_trans (grows_rule_device_identifier heq)
                    (grows_trans (grows_expect_symbol hes)
                      (grows_get_next_symbol hg))
            · injection h with h
              rw [Prod.mk.injEq] at h
              obtain ⟨_, h2⟩ := h
              subst h2
              exact grows_trans (grows_rule_device_identifier heq)
                (grows_trans (grows_expect_symbol hes) (grows_noskip e _ ps2))

theorem grows_rule_device_name_init {e : Env} {fuel : Nat}
    {device_type : Option Nat} {ps ps' : ParseSt} {r : Option Bool}
    (h : Parser.rule_device_name_init e fuel device_type ps = .ok (r, ps')) :
    Grows ps ps' := by
  rw [Parser.rule_device_name_init] at h
  split at h
  · cases h
  · next ps1 heq =>
    injection h with h
    rw [Prod.mk.injEq] at h
    obtain ⟨_, h2⟩ := h
    subst h2
    exact grows_rule_device_identifier heq
  · next dn ps1 heq =>
    split at h
    · cases h
    · split at h
      · split at h
        · cases h
        · next ps2 hg =>
          split at h
          · cases h
          · split at h
            · cases h
            · next ps3 hes =>
              split at h
              · cases h
              · next b ps4 hes2 =>
                exact grows_trans (grows_rule_device_identifier heq)
                  (grows_trans (grows_get_next_symbol hg)
                    (grows_trans (grows_expect_symbol hes)
                      (grows_trans (grows_expect_symbol hes2)
                        (grows_initialise_device h))))
            · next ps3 hes =>
              exact grows_trans (grows_rule_device_identifier heq)
                (grows_trans (grows_get_next_symbol hg)
                  (grows_trans (grows_expect_symbol hes)
                    (grows_initialise_device h)))
      · exact grows_trans (grows_rule_device_identifier heq)
          (grows_initialise_device h)

theorem grows_maybe_skip {e : Env} {failed : Bool} {sep stop : Option Nat}
    {fuel : Nat} {ps ps' : ParseSt}
    (h : Parser.maybe_skip_failed_rule e failed sep stop fuel ps = .ok ps') :
    Grows ps ps' := by
  rw [Parser.maybe_skip_failed_rule.eq_def] at h
  split at h
  · split at h
    · exact grows_skip_to_symbol h
    · cases h
  · injection h with h
    subst h
    exact grows_refl ps

theorem grows_rule_one_or_more_loop {e : Env} {α : Type} [DecidableEq α]
    {rule_func : Nat → ParseSt → Except PFail (Option α × ParseSt)}
    (hrf : ∀ {f : Nat} {p p' : ParseSt} {r : Option α},
      rule_func f p = .ok (r, p') → Grows p p')
    {sep stop : Option Nat} :
    ∀ {fuel : Nat} {ps ps' : ParseSt} {rs : List (Option α)},
      Parser.rule_one_or_more_loop e rule_func sep stop fuel ps = .ok (rs, ps')
      → Grows ps ps' := by
  intro fuel
  induction fuel with
  | zero =>
    intro ps ps' rs h
    cases h
  | succ n ih =>
    intro ps ps' rs h
    rw [Parser.rule_one_or_more_loop] at h
    split at h
    · cases h
    · next s hsym =>
      split at h
      · split at h
        · cases h
        · next ps1 hg =>
          split at h
          · cases h
          · next r ps2 hr =>
            split at h
            · cases h
            · next ps3 hskip =>
              split at h
              · cases h
              · next rs4 ps4 hrec =>
                injection h with h
                rw [Prod.mk.injEq] at h
                obtain ⟨_, h2⟩ := h
                subst h2
                exact grows_trans (grows_get_next_symbol hg)
                  (grows_trans (hrf hr)
                    (grows_trans (grows_maybe_skip hskip) (ih hrec)))
      · split at h
        · split at h
          · cases h
          · next ps1 hg =>
            injection h with h
            rw [Prod.mk.injEq] at h
            obtain ⟨_, h2⟩ := h
            subst h2
            exact grows_get_next_symbol hg
        · split at h
          · injection h with h
            rw [Prod.mk.injEq] at h
            obtain ⟨_, h2⟩ := h
            subst h2
            exact grows_noskip e _ ps
          · split at h
            · cases h
            · next ps1 hhe =>
              exact grows_trans (grows_handle_error hhe) (ih h)

theorem grows_rule_one_or_more {e : Env} {α : Type} [DecidableEq α]
    {rule_func : Nat → ParseSt → Except PFail (Option α × ParseSt)}
    (hrf : ∀ {f : Nat} {p p' : ParseSt} {r : Option α},
      rule_func f p = .ok (r, p') → Grows p p')
    {sep stop : Option Nat} {fuel : Nat} {ps ps' : ParseSt}
    {rs : List (Option α)}
    (h : Parser.rule_one_or_more e rule_func sep stop fuel ps = .ok (rs, ps')) :
    Grows ps ps' := by
  rw [Parser.rule_one_or_more] at h
  split at h
  · cases h
  · next r0 ps1 hr0 =>
    split at h
    · cases h
    · next rs2 ps2 hloop =>
      injection h with h
      rw [Prod.mk.injEq] at h
      obtain ⟨_, h2⟩ := h
      subst h2
      exact grows_trans (hrf hr0) (grows_rule_one_or_more_loop hrf hloop)

theorem grows_rule_device_instantiation {e : Env} {fuel : Nat}
    {ps ps' : ParseSt}
    (h : Parser.rule_device_instantiation e fuel ps = .ok ps') :
    Grows ps ps' := by
  rw [Parser.rule_device_instantiation] at h
  split at h
  · cases h
  · dsimp only [] at h
    split at h
    · cases h
    · next ps1 hek =>
      split at h
      · cases h
      · next rs ps2 hone =>
        injection h with h
        subst h
        exact grows_trans (grows_expect_keyword hek)
          (grows_rule_one_or_more
            (fun {f p p' r} hr => grows_rule_device_name_init hr) hone)
    · next ps1 hek =>
      injection h with h
      subst h
      exact grows_expect_keyword hek

theorem grows_rule_connection {e : Env} {fuel : Nat} {ps ps' : ParseSt}
    (h : Parser.rule_connection e fuel ps = .ok ps') : Grows ps ps' := by
  rw [Parser.rule_connection] at h
  split at h
  · cases h
  · next out? ps1 hout =>
    have hstep : ∀ {ps5 : ParseSt},
        Grows ps ps5 →
        (match Parser.expect_symbol e Scanner.SEMICOLON
            (some (.one Scanner.SEMICOLON)) fuel ps5 with
          | .error f => .error f
          | .ok (true, ps6) => .ok ps6
          | .ok (false, ps6) =>
            match Parser.get_next_symbol e ps6 with
            | .error f => .error f
            | .ok ps7 => .ok ps7) = Except.ok ps' →
        Grows ps ps' := by
      intro ps5 hg5 hm
      split at hm
      · cases hm
      · next ps6 hes =>
        injection hm with hm
        subst hm
        exact grows_trans hg5 (grows_expect_symbol hes)
      · next ps6 hes =>
        split at hm
        · cases hm
        · next ps7 hg7 =>
          injection hm with hm
          subst hm
          exact grows_trans hg5 (grows_trans (grows_expect_symbol hes)
            (grows_get_next_symbol hg7))
    dsimp only [] at h
    split at h
    · cases h
    · next ps5 hs1 =>
      refine hstep ?_ h
      revert hs1
      split
      · intro hs1
        exact grows_trans (grows_rule_output_identifier hout)
          (grows_skip_to_symbol hs1)
      · next out =>
        split
        · intro hs1
          cases hs1
        · next ps2 hes =>
          split
          · intro hs1
            cases hs1
          · next ps3 hin =>
            intro hs1
            exact grows_trans (grows_rule_output_identifier hout)
              (grows_trans (grows_expect_symbol hes)
                (grows_trans (grows_rule_input_identifier hin)
                  (grows_skip_to_symbol hs1)))
          · next inp ps3 hin =>
            split
            · intro hs1
              cases hs1
            · next ps4 hmc =>
              intro hs1
              injection hs1 with hs1
              subst hs1
              exact grows_trans (grows_rule_output_identifier hout)
                (grows_trans (grows_expect_symbol hes)
                  (grows_trans (grows_rule_input_identifier hin)
                    (grows_make_connection hmc)))
        · next ps2 hes =>
          intro hs1
          injection hs1 with hs1
          subst hs1
          exact grows_trans (grows_rule_output_identifier hout)
            (grows_expect_symbol hes)

theorem grows_monitor_fold {e : Env} {fuel : Nat} :
    ∀ {outs : List (Option (Nat × Option Nat))} {ps ps' : ParseSt},
      Parser.monitor_fold e fuel outs ps = .ok ps' → Grows ps ps' := by
  intro outs
  induction outs with
  | nil =>
    intro ps ps' h
    rw [Parser.monitor_fold] at h
    injection h with h
    subst h
    exact grows_refl ps
  | cons o rest ih =>
    intro ps ps' h
    cases o with
    | none =>
      rw [Parser.monitor_fold] at h
      exact ih h
    | some out =>
      rw [Parser.monitor_fold] at h
      split at h
      · cases h
      · next b ps1 hm =>
        exact grows_trans (grows_monitor_output hm) (ih h)

theorem grows_rule_monitor {e : Env} {fuel : Nat} {ps ps' : ParseSt}
    (h : Parser.rule_monitor e fuel ps = .ok ps') : Grows ps ps' := by
  rw [Parser.rule_monitor] at h
  split at h
  · cases h
  · next b ps1 hek =>
    split at h
    · cases h
    · next outs ps2 hone =>
      exact grows_trans (grows_expect_keyword hek)
        (grows_trans (grows_rule_one_or_more
          (fun {f p p' r} hr => grows_rule_output_identifier hr) hone)
          (grows_monitor_fold h))

theorem grows_device_loop {e : Env} :
    ∀ {fuel : Nat} {ps ps' : ParseSt} {early : Bool},
      Parser.device_loop e fuel ps = .ok (early, ps') → Grows ps ps' := by
  intro fuel
  induction fuel with
  | zero =>
    intro ps ps' early h
    cases h
  | succ n ih =>
    intro ps ps' early h
    rw [Parser.device_loop] at h
    split at h
    · cases h
    · next s hsym =>
      split at h
      · injection h with h
        rw [Prod.mk.injEq] at h
        obtain ⟨_, h2⟩ := h
        subst h2
        exact grows_noskip e _ ps
      · split at h
        · cases h
        · split at h
          · cases h
          · next ps1 hri =>
            exact grows_trans (grows_rule_device_instantiation hri) (ih h)
        · split at h
          · cases h
          · injection h with h
            rw [Prod.mk.injEq] at h
            obtain ⟨_, h2⟩ := h
            subst h2
            exact grows_refl ps
          · split at h
            · cases h
            · next ps1 hhe =>
              split at h
              · cases h
              · next s2 hsym2 =>
                split at h
                · split at h
                  · cases h
                  · next ps2 hg =>
                    exact grows_trans (grows_handle_error hhe)
                      (grows_trans (grows_get_next_symbol hg) (ih h))
                · exact grows_trans (grows_handle_error hhe) (ih h)

theorem grows_conn_loop {e : Env} :
    ∀ {fuel : Nat} {ps ps' : ParseSt},
      Parser.conn_loop e fuel ps = .ok ps' → Grows ps ps' := by
  intro fuel
  induction fuel with
  | zero =>
    intro ps ps' h
    cases h
  | succ n ih =>
    intro ps ps' h
    rw [Parser.conn_loop] at h
    split at h
    · cases h
    · exact grows_rule_monitor h
    · split at h
      · cases h
      · next s hsym =>
        split at h
        · injection h with h
          subst h
          exact grows_refl ps
        · split at h
          · split at h
            · cases h
            · next ps1 hrc =>
              exact grows_trans (grows_rule_connection hrc) (ih h)
          · split at h
            · cases h
            · next ps1 hhe =>
              split at h
              · cases h
              · next s2 hsym2 =>
                split at h
                · split at h
                  · cases h
                  · next ps2 hg =>
                    exact grows_trans (grows_handle_error hhe)
                      (grows_trans (grows_get_next_symbol hg) (ih h))
                · exact grows_trans (grows_handle_error hhe) (ih h)

theorem grows_finish_parsing {e : Env} {ps : ParseSt} :
    Grows ps (Parser.finish_parsing e ps).2 := by
  rw [Parser.finish_parsing]
  dsimp only []
  split
  · next hz =>
    split
    · exact grows_trans (grows_log_call ps _ hz) (grows_noskip e _ _)
    · exact grows_log_call ps _ hz
  · exact grows_refl ps

theorem grows_parse_network_body {e : Env} {fuel : Nat} {ps0 ps' : ParseSt}
    {b : Bool} (h : Parser.parse_network e fuel ps0 = .ok (b, ps')) :
    Grows { ps0 with error_count := 0, symbol := none } ps' := by
  rw [Parser.parse_network] at h
  split at h
  · cases h
  · next ps1 hg =>
    split at h
    · cases h
    · next b2 ps2 hek =>
      split at h
      · cases h
      · next b3 ps3 hes =>
        split at h
        · cases h
        · next ps4 hdl =>
          injection h with h
          rw [Prod.mk.injEq] at h
          obtain ⟨_, h2⟩ := h
          subst h2
          exact grows_trans (grows_get_next_symbol hg)
            (grows_trans (grows_expect_keyword hek)
              (grows_trans (grows_expect_symbol hes)
                (grows_trans (grows_device_loop hdl) grows_finish_parsing)))
        · next ps4 hdl =>
          split at h
          · cases h
          · cases h
          · split at h
            · cases h
            · next ps5 hek2 =>
              split at h
              · cases h
              · next b4 ps6 hes2 =>
                split at h
                · cases h
                · next ps7 hcl =>
                  split at h
                  · cases h
                  · next s hsym =>
                    injection h with h
                    rw [Prod.mk.injEq] at h
                    obtain ⟨_, h2⟩ := h
                    subst h2
                    have hcore : Grows { ps0 with error_count := 0, symbol := none } ps7 :=
                      grows_trans (grows_get_next_symbol hg)
                        (grows_trans (grows_expect_keyword hek)
                          (grows_trans (grows_expect_symbol hes)
                            (grows_trans (grows_device_loop hdl)
                              (grows_trans (grows_expect_keyword hek2)
                                (grows_trans (grows_expect_symbol hes2)
                                  (grows_conn_loop hcl))))))
                    revert hcore
                    split
                    · intro hcore
                      exact grows_trans hcore
                        (grows_trans (grows_noskip e _ ps7) grows_finish_parsing)
                    · intro hcore
                      exact grows_trans hcore grows_finish_parsing

theorem finish_parsing_fst (e : Env) (ps : ParseSt) :
    (Parser.finish_parsing e ps).1
      = ((Parser.finish_parsing e ps).2.error_count == 0) := rfl

theorem finish_exit {e : Env} {psX : ParseSt} {b : Bool} {ps' : ParseSt}
    (h : Parser.finish_parsing e psX = (b, ps')) :
    b = true ↔ ps'.error_count = 0 := by
  have hfst := congrArg Prod.fst h
  have hsnd := congrArg Prod.snd h
  simp only [] at hfst hsnd
  subst hfst
  subst hsnd
  rw [finish_parsing_fst]
  simp

theorem parse_network_result {e : Env} {fuel : Nat} {ps0 ps' : ParseSt}
    {b : Bool} (h : Parser.parse_network e fuel ps0 = .ok (b, ps')) :
    b = true ↔ ps'.error_count = 0 := by
  rw [Parser.parse_network] at h
  split at h
  · cases h
  · split at h
    · cases h
    · split at h
      · cases h
      · split at h
        · cases h
        · injection h with h
          exact finish_exit h
        · split at h
          · cases h
          · cases h
          · split at h
            · cases h
            · split at h
              · cases h
              · split at h
                · cases h
                · split at h
                  · cases h
                  · injection h with h
                    exact finish_exit h

/-- C1: `parse_network` returns `True` exactly when no error of any kind
(syntactic, semantic, or the final connectivity check) was counted during
the parse.  The first conjunct ties the result to the final error counter
(which `parse_network` resets to zero on entry); the second ties it to the
ghost error log, which persists across the reset, so `b = true` holds iff
`_handle_error` was never invoked during this parse.  The driver
(`logsim.py`) runs the simulator only under `if parser.parse_network():`,
so a `false` result makes the simulator refuse to run. -/
theorem parse_network_true_iff_no_error (e : Env) (fuel : Nat)
    (ps ps' : ParseSt) (b : Bool)
    (h : Parser.parse_network e fuel ps = .ok (b, ps')) :
    (b = true ↔ ps'.error_count = 0)
    ∧ (b = true ↔ ps'.errlog.length = ps.errlog.length) := by
  have h1 := parse_network_result h
  obtain ⟨nc, ne, hc, he, hn, hz⟩ := grows_parse_network_body h
  refine ⟨h1, ?_⟩
  rw [h1]
  have hcount : ps'.error_count = ne.length := by
    simpa using hn
  have hlen : ps'.errlog.length = ps.errlog.length + ne.length := by
    rw [he]
    simp
  omega

/-- C2: once at least one error has been counted, the parser performs no
further semantic side-effect.  First conjunct: with `error_count > 0` each
of the three semantic wrappers returns immediately, leaving the state (in
particular the collaborator-call log) untouched, so `devices.make_device`,
`network.make_connection` and `monitors.make_monitor` — whose only call
sites in `parse.py` are these wrappers — are not invoked, while the purely
syntactic machinery continues.  Second conjunct: globally, every
collaborator call logged during a whole `parse_network` run was made while
the error count was zero. -/
theorem parser_semantic_suppression (e : Env) (fuel : Nat)
    (ps ps' : ParseSt) (b : Bool) (dts : Option Nat) (did : Nat)
    (q : Option Nat) (out inp : Nat × Option Nat) (oid : Nat)
    (oport : Option Nat) :
    (0 < ps.error_count →
      Parser.initialise_device e fuel dts did q ps = .ok (some false, ps)
      ∧ Parser.make_connection e fuel out inp ps = .ok (some false, ps)
      ∧ Parser.monitor_output e fuel oid oport ps = .ok (some false, ps))
    ∧ (Parser.parse_network e fuel ps = .ok (b, ps') →
        ∃ newCalls, ps'.calls = ps.calls ++ newCalls
          ∧ ∀ c ∈ newCalls, c.errAt = 0) := by
  constructor
  · intro hpos
    refine ⟨?_, ?_, ?_⟩
    · rw [Parser.initialise_device, if_pos hpos]
    · rw [Parser.make_connection, if_pos hpos]
    · rw [Parser.monitor_output, if_pos hpos]
  · intro h
    obtain ⟨nc, ne, hc, he, hn, hz⟩ := grows_parse_network_body h
    exact ⟨nc, by simpa using hc, hz⟩

/-- C3: at the end of parsing, the connectivity check is invoked iff the
error count is zero; a `false` check raises exactly one aggregate
`NETWORK_INPUTS_UNCONNECTED` error, making the result `False` with error
count 1, and a `true` check leaves the clean parse successful; with a
positive count the check is not invoked and the result is `False`. -/
theorem finish_parsing_connectivity (e : Env) (ps ps' : ParseSt) (b : Bool)
    (h : Parser.finish_parsing e ps = (b, ps')) :
    (ps.error_count = 0 →
      ps'.calls = ps.calls ++ [⟨.checkNet, 0⟩]
      ∧ (e.check_network ps.calls = false →
          b = false ∧ ps'.error_count = 1
          ∧ ps'.errlog = ps.errlog ++ [e.eNETWORK_INPUTS_UNCONNECTED])
      ∧ (e.check_network ps.calls = true →
          b = true ∧ ps'.error_count = 0 ∧ ps'.errlog = ps.errlog))
    ∧ (0 < ps.error_count →
        ps'.calls = ps.calls ∧ ps'.error_count = ps.error_count
        ∧ b = false) := by
  rw [Parser.finish_parsing] at h
  dsimp only [] at h
  have hfst := congrArg Prod.fst h
  have hsnd := congrArg Prod.snd h
  dsimp only [] at hfst hsnd
  constructor
  · intro hz
    rw [if_pos hz] at hfst hsnd
    by_cases hchk : e.check_network ps.calls = false
    · rw [if_pos hchk] at hfst hsnd
      refine ⟨?_, ?_, ?_⟩
      · rw [← hsnd]
        simp [Parser.handle_error_noskip, hz]
      · intro _
        refine ⟨?_, ?_, ?_⟩
        · rw [← hfst]
          simp [Parser.handle_error_noskip]
        · rw [← hsnd]
          simp [Parser.handle_error_noskip, hz]
        · rw [← hsnd]
          simp [Parser.handle_error_noskip]
      · intro hchk2
        rw [hchk] at hchk2
        simp at hchk2
    · rw [if_neg hchk] at hfst hsnd
      refine ⟨?_, ?_, ?_⟩
      · rw [← hsnd]
        simp [hz]
      · intro hchk2
        exact absurd hchk2 hchk
      · intro _
        refine ⟨?_, ?_, ?_⟩
        · rw [← hfst]
          simp [hz]
        · rw [← hsnd]
          simp [hz]
        · rw [← hsnd]
  · intro hpos
    have hz : ¬ps.error_count = 0 := by omega
    rw [if_neg hz] at hfst hsnd
    refine ⟨?_, ?_, ?_⟩
    · rw [← hsnd]
    · rw [← hsnd]
    · rw [← hfst]
      simp
      omega

theorem skip_no_spin {e : Env} {stop : StopSpec} :
    ∀ (fuel : Nat) (ps : ParseSt), ScanOK ps.scanner = true →
      scanMeasure ps.scanner + 2 ≤ fuel →
      Parser.skip_to_symbol e stop fuel ps ≠ .error .spin := by
  intro fuel
  induction fuel with
  | zero =>
    intro ps hok hf
    omega
  | succ n ih =>
    intro ps hok hf hcontra
    rw [Parser.skip_to_symbol] at hcontra
    cases hsym : ps.symbol with
    | none =>
      rw [hsym] at hcontra
      cases hcontra
    | some s =>
      rw [hsym] at hcontra
      dsimp only [] at hcontra
      split at hcontra
      · next hgo =>
        have hne : (s.stype == some Scanner.EOF) = false := by
          cases stop with
          | one t =>
            simp only [Bool.and_eq_true, Bool.not_eq_true'] at hgo
            exact hgo.2
          | many ts =>
            simp only [Bool.and_eq_true, Bool.not_eq_true'] at hgo
            exact hgo.2
        have heof : Parser.symbol_at_eof ps = false := by
          rw [Parser.symbol_at_eof, hsym]
          exact hne
        rw [Parser.get_next_symbol, if_neg (by simp [heof])] at hcontra
        cases hgs : Scanner.get_symbol ps.scanner with
        | error f =>
          rw [hgs] at hcontra
          cases hcontra
        | ok r =>
          rw [hgs] at hcontra
          obtain ⟨sym, sc⟩ := r
          dsimp only [] at hcontra
          obtain ⟨hok2, hmle, hprog, k, hk⟩ := get_symbol_progress hok hgs
          rcases hprog with hlt | heofs
          · exact ih { ps with scanner := sc, symbol := some sym }
              hok2 (by simp only []; omega) hcontra
          · cases n with
            | zero => omega
            | succ m =>
              rw [Parser.skip_to_symbol.eq_def] at hcontra
              dsimp only [] at hcontra
              have hgo2 : ∀ t : Nat, (!(sym.stype == some t)
                  && !(sym.stype == some Scanner.EOF)) = false := by
                intro t
                rw [heofs]
                simp
              cases stop with
              | one t =>
                dsimp only [] at hcontra
                rw [if_neg (by rw [hgo2 t]; simp)] at hcontra
                cases hcontra
              | many ts =>
                dsimp only [] at hcontra
                rw [if_neg (by rw [heofs]; simp)] at hcontra
                cases hcontra
      · cases hcontra

/-- C10 amended: once the scanner has consumed the whole file, `get_symbol`
returns an `EOF` symbol with an absent id and leaves the scanner unchanged
(so `EOF` is absorbing), and `_skip_to_symbol` terminates — stopping at its
stopping symbol or at `EOF` — on every state whose remaining input consists
of characters of the lexical grammar (alphanumeric, whitespace, `#`, or the
seven punctuation characters).  The restriction is necessary: an invalid
character directly following a token makes `get_symbol` return a kind-less
symbol without consuming input, and `_skip_to_symbol` then loops forever
(see `skip_to_symbol_diverges_on_invalid_char`). -/
theorem scanner_eof_absorbing_and_skip_terminates (st : ScanState) (e : Env)
    (stop : StopSpec) (fuel : Nat) (ps : ParseSt) :
    (st.current_char = none →
      Scanner.get_symbol st
        = .ok (⟨some Scanner.EOF, none, st.line_num, st.char_num⟩, st))
    ∧ (ScanOK ps.scanner = true → scanMeasure ps.scanner + 2 ≤ fuel →
        Parser.skip_to_symbol e stop fuel ps ≠ .error .spin) := by
  constructor
  · exact get_symbol_at_eof st
  · intro hok hf
    exact skip_no_spin fuel ps hok hf

/-- A concrete environment for witness runs: keyword IDs as `Scanner.init`
interns them on a fresh name table (0..17 in `keywords_list` order), the
parser's eight error codes as `unique_error_codes(8)` yields on a fresh
allocator (0..7), arbitrary distinct collaborator constants, and
collaborators that always report success. -/
def envTest : Env :=
  { kwCLOCK := 0, kwSWITCH := 1, kwAND := 2, kwNAND := 3, kwOR := 4,
    kwNOR := 5, kwDTYPE := 6, kwXOR := 7, kwMONITOR := 8, kwQ := 9,
    kwQBAR := 10, kwCLK := 11, kwDATA := 12, kwSET := 13, kwCLEAR := 14,
    kwDEVICES := 15, kwCONNECTIONS := 16, kwRC := 17,
    eEXPECTED_SYMBOL := 0, eEXPECTED_KEYWORD := 1,
    eEXPECTED_DEVICE_INSTANTIATION := 2, eUNEXPECTED_EOF := 3,
    eEXPECTED_EOF := 4, eEXPECTED_CONNECTION := 5,
    eEXPECTED_NAME_PORT_INPUT := 6, eNETWORK_INPUTS_UNCONNECTED := 7,
    dAND := 100, dOR := 101, dNAND := 102, dNOR := 103, dXOR := 104,
    dCLOCK := 105, dSWITCH := 106, dD_TYPE := 107, dRC := 108,
    dHIGH := 31, dLOW := 30,
    devNO_ERROR := 0, netNO_ERROR := 0, monNO_ERROR := 0,
    netDEVICE_ABSENT := 50,
    dQ_ID := 40, dQBAR_ID := 41, dCLK_ID := 42, dDATA_ID := 43,
    dSET_ID := 44, dCLEAR_ID := 45,
    make_device := fun _ _ _ _ => 0,
    make_connection := fun _ _ _ _ _ => 0,
    make_monitor := fun _ _ _ => 0,
    get_device := fun _ _ => true,
    check_network := fun _ => true }

/-- `envTest` with a connectivity check that reports unconnected inputs. -/
def envTestU : Env := { envTest with check_network := fun _ => false }

/-- A fresh parser state over a fresh scanner reading `input`. -/
def psInit (input : List Char) : ParseSt :=
  { scanner := (Scanner.init ⟨[], 0⟩ input).1
    symbol := none
    error_count := 0
    suppressed_errors := []
    calls := []
    errlog := [] }

/-- The scanner state reached after scanning the name `a` of the definition
file `a@;`: the invalid character `@` sits in the read buffer, reached
directly from a token rather than through the whitespace-skipping loop. -/
def stBad : ScanState :=
  { input := [';'], current_char := some '@', hashes := 0, line_num := 0,
    char_num := 2,
    names := (Names.lookup ⟨[], 0⟩ (Scanner.keywords_list ++ ["a"])).1 }

/-- A parser state at `stBad` whose current symbol is the `NAME` symbol for
`a`, as `_skip_to_symbol(SEMICOLON)` would see it. -/
def psBad : ParseSt :=
  { scanner := stBad, symbol := some ⟨some Scanner.NAME, some 18, 0, 1⟩,
    error_count := 0, suppressed_errors := [], calls := [], errlog := [] }

unseal Scanner.hash_inner Scanner.nc_loop Scanner.next_valid_char Scanner.get_name Scanner.get_number in
/-- C8: evaluation at the failing input.  On the file `a@;` the scanner
does not abort at the invalid character `@`: the first `get_symbol` returns
the `NAME` symbol for `a` leaving `@` in the read buffer (`stBad`), and the
second returns a symbol whose kind is `None` — outside the eleven defined
kinds — without reporting any fatal error and without consuming input (the
state is returned unchanged).  The fatal check of `_next_valid_char` runs
only on characters reached while skipping whitespace or comments, so an
invalid character directly following a token escapes it, contradicting the
spec's "anything else is a fatal scanner error that aborts the whole
session". -/
theorem scanner_invalid_char_not_fatal :
    Scanner.get_symbol (Scanner.init ⟨[], 0⟩ "a@;".toList).1
      = .ok (⟨some Scanner.NAME, some 18, 0, 1⟩, stBad)
    ∧ Scanner.get_symbol stBad = .ok (⟨none, none, 0, 2⟩, stBad) := by
  constructor
  · rfl
  · rfl

unseal Scanner.hash_inner Scanner.nc_loop Scanner.next_valid_char Scanner.get_name Scanner.get_number in
/-- C10 counterexample: the kind-less symbol produced at an invalid
character adjacent to a token (see `scanner_invalid_char_not_fatal`) is a
fixed point of `get_symbol`: the state `stBad` is returned unchanged.  With
the `NAME` symbol current (neither the `SEMICOLON` stopping symbol nor
`EOF`), `_skip_to_symbol(SEMICOLON)` therefore re-fetches the same
kind-less symbol forever: the embedded loop exhausts any fuel (shown at
50), refuting the claim that the skip loop always terminates. -/
theorem skip_to_symbol_diverges_on_invalid_char :
    Scanner.get_symbol stBad = .ok (⟨none, none, 0, 2⟩, stBad)
    ∧ Parser.skip_to_symbol envTest (.one Scanner.SEMICOLON) 50 psBad
        = .error .spin := by
  constructor
  · rfl
  · rfl

/-- A scanner state that has consumed its whole file. -/
def stEofW : ScanState :=
  { input := [], current_char := none, hashes := 0, line_num := 3,
    char_num := 0, names := (Names.lookup ⟨[], 0⟩ Scanner.keywords_list).1 }

/-- A parser state at end of file holding the `EOF` symbol. -/
def psEofW : ParseSt :=
  { scanner := stEofW, symbol := some ⟨some Scanner.EOF, none, 3, 0⟩,
    error_count := 0, suppressed_errors := [], calls := [], errlog := [] }

theorem scanner_eof_absorbing_and_skip_terminates_witness :
    Scanner.get_symbol stEofW = .ok (⟨some Scanner.EOF, none, 3, 0⟩, stEofW)
    ∧ Parser.skip_to_symbol envTest (.one Scanner.SEMICOLON) 2 psEofW
        ≠ .error .spin := by
  have h := scanner_eof_absorbing_and_skip_terminates stEofW envTest
    (.one Scanner.SEMICOLON) 2 psEofW
  exact ⟨h.1 (by decide), h.2 (by decide) (by decide)⟩

/-- A clean, complete definition file for witness runs. -/
def psRunA : ParseSt :=
  psInit "DEVICES: AND a(2); CONNECTIONS: MONITOR a;".toList

/-- The parser state after parsing `psRunA`'s file. -/
def psOutA : ParseSt :=
  match Parser.parse_network envTest 80 psRunA with
  | .ok (_, ps) => ps
  | .error _ => psRunA

unseal Scanner.hash_inner Scanner.nc_loop Scanner.next_valid_char Scanner.get_name Scanner.get_number in
theorem parseRunA_eval :
    Parser.parse_network envTest 80 psRunA = .ok (true, psOutA) := by rfl

theorem parse_network_true_iff_no_error_witness :
    (true = true ↔ psOutA.error_count = 0)
    ∧ (true = true ↔ psOutA.errlog.length = psRunA.errlog.length) :=
  parse_network_true_iff_no_error envTest 80 psRunA psOutA true parseRunA_eval

/-- A parser state in which one error has already been counted. -/
def psErrW : ParseSt := { psInit [] with error_count := 1 }

theorem parser_semantic_suppression_witness :
    Parser.initialise_device envTest 5 (some 2) 18 none psErrW
      = .ok (some false, psErrW)
    ∧ (∃ newCalls, psOutA.calls = psRunA.calls ++ newCalls
        ∧ ∀ c ∈ newCalls, c.errAt = 0) := by
  constructor
  · exact ((parser_semantic_suppression envTest 5 psErrW psErrW true (some 2)
      18 none (0, none) (0, none) 0 none).1 (by decide)).1
  · exact (parser_semantic_suppression envTest 80 psRunA psOutA true (some 2)
      18 none (0, none) (0, none) 0 none).2 parseRunA_eval

/-- An error-free parser state at end of parsing, for the final check. -/
def psFinW : ParseSt := psInit []

theorem finish_parsing_connectivity_witness :
    (Parser.finish_parsing envTestU psFinW).2.calls
        = psFinW.calls ++ [⟨.checkNet, 0⟩]
    ∧ ((Parser.finish_parsing envTestU psFinW).1 = false
        ∧ (Parser.finish_parsing envTestU psFinW).2.error_count = 1
        ∧ (Parser.finish_parsing envTestU psFinW).2.errlog
            = psFinW.errlog ++ [envTestU.eNETWORK_INPUTS_UNCONNECTED])
    ∧ ((Parser.finish_parsing envTest psFinW).1 = true
        ∧ (Parser.finish_parsing envTest psFinW).2.error_count = 0) := by
  have hU := finish_parsing_connectivity envTestU psFinW
    (Parser.finish_parsing envTestU psFinW).2
    (Parser.finish_parsing envTestU psFinW).1 rfl
  have hT := finish_parsing_connectivity envTest psFinW
    (Parser.finish_parsing envTest psFinW).2
    (Parser.finish_parsing envTest psFinW).1 rfl
  refine ⟨(hU.1 (by decide)).1, ?_, ?_⟩
  · have h2 := (hU.1 (by decide)).2.1 (by decide)
    exact ⟨h2.1, h2.2.1, h2.2.2⟩
  · have h3 := (hT.1 (by decide)).2.2 (by decide)
    exact ⟨h3.1, h3.2.1⟩
